import Mathlib

/-!
# Verification of the pyright binder (`packages/pyright-internal/src/analyzer/binder.ts`)

This file gives a shallow embedding of the name-binding / control-flow-graph
construction pass of the pyright type checker and proves properties of it.

The embedding translates the functions of `binder.ts` into pure Lean functions
over an explicit `BinderState`.  Mutable objects of the TypeScript source that
are shared by reference (flow labels, scopes, symbols, function declarations)
are kept in association-list stores keyed by their unique ids, mirroring the
"arena plus ids" design the source relies on; in-place mutation becomes a store
update at the object's id.  AST nodes carry explicit `nodeId`s standing for
object identity of parse nodes (side tables such as `AnalyzerNodeInfo` are
keyed by those ids).  Code of the repository that `binder.ts` imports but that
is not part of the source under verification (`scope.ts`, `symbol.ts`,
`codeFlow.ts`, `staticExpressions.ts`, `symbolUtils.ts`) is modelled from the
specification; each such definition is marked `Modelled from the spec:` in its
doc comment.

The statement walker is embedded for the statement fragment exercised by the
theorems (pass, bare `return`, bare `yield`, nested `def`); each visitor is a
line-by-line translation of the corresponding `visit...` method restricted to
that fragment (the fragment has no decorators, no parameters with annotations,
no classes, and no diagnostic sink).
-/

namespace PyrightBinder

/-- Operator types used by the binder (from `tokenizerTypes.ts`). Only the
operators the binder inspects are distinguished; `other` stands for any
operator the binder treats generically. -/
inductive OperatorType where
  | is_
  | isNot
  | equals
  | notEquals
  | in_
  | not_
  | and_
  | or_
  | other
  deriving DecidableEq, Repr

/-- Keyword constants appearing in `ConstantNode`s; only `None`, `True`,
`False` are inspected by the binder / static evaluator. -/
inductive KeywordType where
  | none_
  | true_
  | false_
  | other
  deriving DecidableEq, Repr

/-- Argument categories of call arguments (from `parseNodes.ts`). -/
inductive ArgumentCategory where
  | simple
  | unpackedList
  | unpackedDictionary
  deriving DecidableEq, Repr

/-- The two condition flavours of a `FlowCondition` node
(`FlowFlags.TrueCondition` / `FlowFlags.FalseCondition`). -/
inductive CondFlag where
  | trueCondition
  | falseCondition
  deriving DecidableEq, Repr

/-- Kind of a flow label (`FlowFlags.BranchLabel` / `FlowFlags.LoopLabel`). -/
inductive LabelKind where
  | branch
  | loop
  deriving DecidableEq, Repr

/-- `NameBindingType` from `binder.ts` (nonlocal / global declarations). -/
inductive NameBindingType where
  | nonlocal_
  | global_
  deriving DecidableEq, Repr

/-- `ScopeType` from `scope.ts` (modelled from the spec's Scope data model). -/
inductive ScopeType where
  | builtin
  | module
  | function
  | class_
  | listComprehension
  deriving DecidableEq, Repr

mutual
/-- Expression fragment of the parse-node model.  Every constructor carries a
`nodeId` standing for the parse node's object identity (side tables are keyed
by it).  The constructors mirror the expression node kinds that
`_isNarrowingExpression`, `_createFlowConditional` and the assignment helpers
inspect. -/
inductive Expression where
  | name (nodeId : Nat) (value : String)
  | memberAccess (nodeId : Nat) (leftExpression : Expression) (memberName : String)
  | constant (nodeId : Nat) (constType : KeywordType)
  | assignmentExpression (nodeId : Nat) (nameNodeId : Nat) (nameValue : String)
      (rightExpression : Expression)
  | binaryOperation (nodeId : Nat) (operator : OperatorType)
      (leftExpression rightExpression : Expression)
  | unaryOperation (nodeId : Nat) (operator : OperatorType) (expression : Expression)
  | augmentedAssignment (nodeId : Nat) (operator : OperatorType)
      (leftExpression rightExpression : Expression)
  | call (nodeId : Nat) (leftExpression : Expression) (arguments : ArgumentList)

/-- Argument list of a call node (a list of `{argumentCategory, valueExpression}`
records, as in `parseNodes.ts`). -/
inductive ArgumentList where
  | nil
  | cons (argumentCategory : ArgumentCategory) (valueExpression : Expression)
      (tail : ArgumentList)
end

/-- Length of an argument list (`arguments.length`). -/
def ArgumentList.length : ArgumentList → Nat
  | .nil => 0
  | .cons _ _ t => t.length + 1

/-- The `nodeId` of an expression. -/
def Expression.nodeId : Expression → Nat
  | .name i _ => i
  | .memberAccess i _ _ => i
  | .constant i _ => i
  | .assignmentExpression i _ _ _ => i
  | .binaryOperation i _ _ _ => i
  | .unaryOperation i _ _ => i
  | .augmentedAssignment i _ _ _ => i
  | .call i _ _ => i

/-- Modelled from the spec: `isCodeFlowSupportedForReference` from
`codeFlow.ts` (not under `src/`).  "bare names and dotted member chains that
are themselves supported references": a name is supported, a member access is
supported iff its base is. -/
def isCodeFlowSupportedForReference : Expression → Bool
  | .name _ _ => true
  | .memberAccess _ leftExpression _ => isCodeFlowSupportedForReference leftExpression
  | _ => false

/-- Modelled from the spec: `createKeyForReference` from `codeFlow.ts` (not
under `src/`).  "A canonical string form of a name or dotted member-access
chain."  Only names and member-access chains receive keys. -/
def createKeyForReference : Expression → String
  | .name _ value => value
  | .memberAccess _ leftExpression memberName =>
      createKeyForReference leftExpression ++ "." ++ memberName
  | _ => ""

/-- Flow nodes (`codeFlow.ts` variants, as used by `binder.ts`).  Labels carry
only their id here: their mutable `antecedents` lists live in the label store
of `BinderState`.  `assignment`, `call` and `wildcardImport` reference their
parse node by `nodeId`. -/
inductive FlowNode where
  | start (id : Nat)
  | unreachable (id : Nat)
  | branchLabel (id : Nat)
  | loopLabel (id : Nat)
  | assignment (id : Nat) (nodeId : Nat) (antecedent : FlowNode)
      (targetSymbolId : Nat) (unbind : Bool)
  | assignmentAlias (id : Nat) (antecedent : FlowNode)
      (targetSymbolId aliasSymbolId : Nat)
  | call (id : Nat) (nodeId : Nat) (antecedent : FlowNode)
  | condition (id : Nat) (flag : CondFlag) (expression : Expression)
      (antecedent : FlowNode)
  | wildcardImport (id : Nat) (nodeId : Nat) (names : List String)
      (antecedent : FlowNode)
  | preFinallyGate (id : Nat) (antecedent : FlowNode) (isGateClosed : Bool)
  | postFinally (id : Nat) (antecedent : FlowNode) (preFinallyGateId : Nat)

/-- The process-unique id of a flow node. -/
def FlowNode.id : FlowNode → Nat
  | .start i => i
  | .unreachable i => i
  | .branchLabel i => i
  | .loopLabel i => i
  | .assignment i _ _ _ _ => i
  | .assignmentAlias i _ _ _ => i
  | .call i _ _ => i
  | .condition i _ _ _ => i
  | .wildcardImport i _ _ _ => i
  | .preFinallyGate i _ _ => i
  | .postFinally i _ _ => i

/-- `flags & FlowFlags.Unreachable`: true exactly for the unreachable node. -/
def FlowNode.isUnreachable : FlowNode → Bool
  | .unreachable _ => true
  | _ => false

/-- `Binder._unreachableFlowNode`: the unreachable singleton, allocated once
when the class is initialized (it takes the first id of the process-wide
counter; created flow nodes start at id 1). -/
def unreachableFlowNode : FlowNode := .unreachable 0

/-- A flow label object (`FlowLabel` from `codeFlow.ts`): kind, id and the
mutable `antecedents` list.  Labels live in the `labels` store of
`BinderState` and are referenced from flow nodes by id. -/
structure FlowLabel where
  kind : LabelKind
  id : Nat
  antecedents : List FlowNode

/-- The flow-node view of a label (the label used as a flow node). -/
def FlowLabel.toFlowNode (l : FlowLabel) : FlowNode :=
  match l.kind with
  | .branch => .branchLabel l.id
  | .loop => .loopLabel l.id

mutual
/-- Statement fragment of the parse-node model: `pass`, a bare `return`, a
bare `yield` statement, and a (non-decorated, parameterless-annotation) `def`.
These are the statement kinds the generator-detection and deferred-binding
theorems exercise. -/
inductive Statement where
  | pass (nodeId : Nat)
  | ret (nodeId : Nat)
  | yieldStmt (nodeId : Nat)
  | functionDef (nodeId : Nat) (nameNodeId : Nat) (name : String)
      (params : List (Nat × String)) (suite : StatementList)

/-- A suite of statements. -/
inductive StatementList where
  | nil
  | cons (head : Statement) (tail : StatementList)
end

/-- The `nodeId` of a statement. -/
def Statement.nodeId : Statement → Nat
  | .pass i => i
  | .ret i => i
  | .yieldStmt i => i
  | .functionDef i _ _ _ _ => i

mutual
/-- `YieldFinder.checkContainsYield` from `binder.ts`: the default parse-tree
walk visits every child node, so the scan recurses into nested function
bodies as well. -/
def containsYield : Statement → Bool
  | .pass _ => false
  | .ret _ => false
  | .yieldStmt _ => true
  | .functionDef _ _ _ _ suite => containsYieldList suite

/-- `YieldFinder` scan over a suite. -/
def containsYieldList : StatementList → Bool
  | .nil => false
  | .cons s t => containsYield s || containsYieldList t
end

/-- `ModuleLoaderActions` (`declaration.ts`): a `path` plus a recursive
mapping `name → ModuleLoaderActions` (the `implicitImports` map, kept here as
an insertion-ordered association list, matching `Map` iteration order). -/
inductive ModuleLoaderActions where
  | mk (path : String) (implicitImports : List (String × ModuleLoaderActions))

/-- The resolved file path at this depth (empty when non-terminal). -/
def ModuleLoaderActions.path : ModuleLoaderActions → String
  | .mk p _ => p

/-- The nested implicit-import actions. -/
def ModuleLoaderActions.implicitImports :
    ModuleLoaderActions → List (String × ModuleLoaderActions)
  | .mk _ m => m

/-- Declarations (`declaration.ts` tagged variants), restricted to the fields
the verified functions read or write.  `function_` declarations are mutable in
the source (the binder later sets `isGenerator` and appends statement lists),
so their mutable part lives in the `functionDecls` store of `BinderState`,
keyed by the declaring parse node's id; the list entry here carries the key. -/
inductive Declaration where
  | variable_ (nodeId : Nat) (isConstant : Bool) (path : String) (moduleName : String)
  | parameter (nodeId : Nat) (path : String) (moduleName : String)
  | function_ (nodeId : Nat) (path : String) (moduleName : String)
  | class_ (nodeId : Nat) (path : String) (moduleName : String)
  | alias_ (nodeId : Nat) (path : String) (usesLocalName : Bool)
      (moduleName : String) (symbolName : Option String)
      (firstNamePart : Option String)
      (implicitImports : List (String × ModuleLoaderActions))
  | intrinsic (nodeId : Nat) (intrinsicType : String)
  | specialBuiltInClass (nodeId : Nat)

/-- Is this an Alias declaration whose `firstNamePart` equals the given name?
(`decl.type === DeclarationType.Alias && decl.firstNamePart === firstNamePartValue`). -/
def Declaration.isAliasWithFirstNamePart (d : Declaration) (firstNamePartValue : String) : Bool :=
  match d with
  | .alias_ _ _ _ _ _ firstNamePart _ => firstNamePart == some firstNamePartValue
  | _ => false

/-- An implicit import advertised by the import resolver
(`importResult.ts`: `{name, path}`). -/
structure ImplicitImport where
  name : String
  path : String

/-- The per-module-name import-info side channel (`importResult.ts`),
restricted to the fields `binder.ts` reads. -/
structure ImportResult where
  isImportFound : Bool
  isNativeLib : Bool
  importName : String
  resolvedPaths : List String
  implicitImports : List ImplicitImport

/-- A symbol of an imported module's symbol table, as seen through
`importLookup` (only the flag the wildcard-import code inspects). -/
structure LookupSymbol where
  isIgnoredForProtocolMatch : Bool

/-- `ImportLookupResult` (`analyzerFileInfo.ts`): the looked-up module's
symbol table plus its advertised `__all__` names.  The symbol table is an
insertion-ordered association list (matching `Map` iteration order).
`dunderAllNames` is what `getNamesInDunderAll` (from `symbolUtils.ts`, not
under `src/`) extracts; it is modelled from the spec as the module's explicit
export list, or nothing when the module advertises none. -/
structure ImportLookupResult where
  symbolTable : List (String × LookupSymbol)
  dunderAllNames : Option (List String)

/-- Symbol flags relevant to the verified functions (`symbol.ts`
`SymbolFlags`, modelled from the spec's Symbol data model). -/
structure SymbolFlags where
  initiallyUnbound : Bool
  classMember : Bool
  externallyHidden : Bool
  deriving DecidableEq, Repr

/-- A symbol (modelled from the spec: `symbol.ts` is not under `src/`):
process-unique id, flag set, append-only declaration list. -/
structure SymbolData where
  flags : SymbolFlags
  declarations : List Declaration

/-- A scope (modelled from the spec: `scope.ts` is not under `src/`): variant
tag, optional parent (by scope id), and a name → symbol-id table. -/
structure ScopeData where
  type : ScopeType
  parent : Option Nat
  symbolTable : List (String × Nat)

/-- The mutable part of a `FunctionDeclaration` (`declaration.ts`): the binder
sets `isGenerator` and appends to the return/yield/raise statement-id lists
after the declaration object is created. -/
structure FunctionDeclData where
  isMethod : Bool
  isGenerator : Bool
  returnStatements : List Nat
  yieldStatements : List Nat
  raiseStatements : List Nat

/-- Defunctionalized deferred callback: the closures pushed by
`_deferBinding` in `binder.ts` are exactly the function-body closure of
`visitFunction` (lines 438-482) and the lambda-body closure of `visitLambda`;
the statement fragment embedded here produces the former. -/
inductive DeferredCallbackData where
  | functionBody (fnNodeId : Nat) (params : List (Nat × String)) (suite : StatementList)

/-- `DeferredBindingTask` from `binder.ts`: captured scope id, non-local
binding map, reference map, and the callback. -/
structure DeferredBindingTask where
  scope : Nat
  nonLocalBindingsMap : List (String × NameBindingType)
  codeFlowExpressionMap : List String
  callback : DeferredCallbackData

/-- The slice of `AnalyzerFileInfo` the verified functions read.
`evaluateStaticBoolLikeExpression` lives in `staticExpressions.ts` (not under
`src/`); it is modelled from the spec as an advisory helper returning
`some true`, `some false`, or `none` for a boolean-like expression, and kept
abstract here as a field, as is the `importLookup` capability. -/
structure FileInfo where
  filePath : String
  moduleName : String
  isStubFile : Bool
  fileNameWithoutExtension : String
  staticBoolEval : Expression → Option Bool
  importLookup : String → Option ImportLookupResult

/-- The binder's mutable state (the private fields of the `Binder` class that
the verified functions touch), together with the object stores standing for
the heap: flow labels, scopes, symbols and function declarations are mutated
in place in the source, so they live here keyed by their unique ids.
`flowSideTable` is the `AnalyzerNodeInfo.setFlowNode/getFlowNode` side table,
keyed by parse-node id. -/
structure BinderState where
  fileInfo : FileInfo
  nextFlowNodeId : Nat
  currentFlowNode : FlowNode
  labels : List (Nat × FlowLabel)
  currentExceptTargets : Option (List Nat)
  finallyTargets : List Nat
  currentReturnTarget : Option Nat
  currentTrueTarget : Option Nat
  currentFalseTarget : Option Nat
  currentExecutionScopeReferenceMap : List String
  flowSideTable : List (Nat × FlowNode)
  nextSymbolId : Nat
  nextScopeId : Nat
  currentScope : Nat
  scopes : List (Nat × ScopeData)
  symbols : List (Nat × SymbolData)
  notLocalBindings : List (String × NameBindingType)
  functionDecls : List (Nat × FunctionDeclData)
  targetFunctionDeclaration : Option Nat
  nestedExceptDepth : Nat
  deferredBindingTasks : List DeferredBindingTask

section AssocList

variable {α : Type}

/-- Lookup in an id-keyed store. -/
def alistGet (l : List (Nat × α)) (k : Nat) : Option α :=
  match l with
  | [] => none
  | (k', v) :: rest => if k' = k then some v else alistGet rest k

/-- Update-or-insert in an id-keyed store (replaces the entry when the key is
present, appends otherwise), modelling `Map.set` / in-place object update. -/
def alistSet (l : List (Nat × α)) (k : Nat) (v : α) : List (Nat × α) :=
  match l with
  | [] => [(k, v)]
  | (k', v') :: rest => if k' = k then (k, v) :: rest else (k', v') :: alistSet rest k v

/-- Lookup in a string-keyed store. -/
def salistGet (l : List (String × α)) (k : String) : Option α :=
  match l with
  | [] => none
  | (k', v) :: rest => if k' = k then some v else salistGet rest k

/-- Update-or-insert in a string-keyed store (`Map.set`). -/
def salistSet (l : List (String × α)) (k : String) (v : α) : List (String × α) :=
  match l with
  | [] => [(k, v)]
  | (k', v') :: rest => if k' = k then (k, v) :: rest else (k', v') :: salistSet rest k v

end AssocList

/-! ## Scope and symbol operations

`scope.ts`, `symbol.ts` and `symbolNameUtils.ts` are not under `src/`; these
operations are modelled from the spec (§3 data model, §4.1). -/

/-- `name.startsWith('_')`, implemented on the character list so that it
evaluates by reduction (the library `String.startsWith` loop does not). -/
def strStartsWithUnderscore (name : String) : Bool :=
  match name.data with
  | [] => false
  | c :: _ => c == '_'

/-- Modelled from the spec: `isPrivateOrProtectedName` from
`symbolNameUtils.ts` — private and protected names begin with an
underscore. -/
def isPrivateOrProtectedName (name : String) : Bool :=
  strStartsWithUnderscore name

/-- Modelled from the spec: `Scope.lookUpSymbol(name)` — "returns the symbol
defined in this scope or nothing" (here, the symbol's id). -/
def scopeLookUpSymbol (s : BinderState) (scopeId : Nat) (name : String) : Option Nat :=
  match alistGet s.scopes scopeId with
  | none => none
  | some sc => salistGet sc.symbolTable name

/-- Modelled from the spec: the parent-pointer walk of
`Scope.lookUpSymbolRecursive(name)` — "walks parent pointers, returning the
first match paired with the scope it came from".  `fuel` bounds the length of
the parent chain (the scope tree is finite); the theorems instantiate it
large enough for their chains.  Returns `(symbolId, scopeId)`. -/
def lookUpSymbolRecursive (s : BinderState) : Nat → Nat → String → Option (Nat × Nat)
  | 0, _, _ => none
  | fuel + 1, scopeId, name =>
    match scopeLookUpSymbol s scopeId name with
    | some symId => some (symId, scopeId)
    | none =>
      match alistGet s.scopes scopeId with
      | none => none
      | some sc =>
        match sc.parent with
        | none => none
        | some parentId => lookUpSymbolRecursive s fuel parentId name

/-- Modelled from the spec: `Scope.addSymbol(name, flags)` — "creates and
installs" a fresh symbol (process-unique id from the state's counter) in the
scope's symbol table.  Returns the new symbol's id. -/
def scopeAddSymbol (s : BinderState) (scopeId : Nat) (name : String)
    (flags : SymbolFlags) : Nat × BinderState :=
  let symId := s.nextSymbolId
  let s :=
    { s with
      nextSymbolId := s.nextSymbolId + 1
      symbols := alistSet s.symbols symId { flags, declarations := [] } }
  match alistGet s.scopes scopeId with
  | none => (symId, s)
  | some sc =>
    (symId,
      { s with
        scopes :=
          alistSet s.scopes scopeId
            { sc with symbolTable := salistSet sc.symbolTable name symId } })

/-- Modelled from the spec: `Symbol.setIsExternallyHidden()`. -/
def symbolSetExternallyHidden (s : BinderState) (symId : Nat) : BinderState :=
  match alistGet s.symbols symId with
  | none => s
  | some sym =>
    { s with
      symbols :=
        alistSet s.symbols symId
          { sym with flags := { sym.flags with externallyHidden := true } } }

/-- Modelled from the spec: `Symbol.addDeclaration(decl)` — "declarations are
appended in source order and never removed". -/
def symbolAddDeclaration (s : BinderState) (symId : Nat) (decl : Declaration) :
    BinderState :=
  match alistGet s.symbols symId with
  | none => s
  | some sym =>
    { s with
      symbols :=
        alistSet s.symbols symId
          { sym with declarations := sym.declarations ++ [decl] } }

/-- Modelled from the spec: `indeterminateSymbolId` from `symbol.ts` — the
"indeterminate sentinel" used for member-access assignment targets.  Fresh
symbol ids are allocated starting above it. -/
def indeterminateSymbolId : Nat := 0

/-! ## Flow-graph primitives (translated from `binder.ts`) -/

/-- `AnalyzerNodeInfo.setFlowNode(node, flowNode)` (side-table write keyed by
parse-node id). -/
def setFlowNodeTbl (s : BinderState) (nodeId : Nat) (f : FlowNode) : BinderState :=
  { s with flowSideTable := alistSet s.flowSideTable nodeId f }

/-- `AnalyzerNodeInfo.getFlowNode(node)`. -/
def getFlowNodeTbl (s : BinderState) (nodeId : Nat) : Option FlowNode :=
  alistGet s.flowSideTable nodeId

/-- `getUniqueFlowNodeId()` combined with reading the counter: returns the
fresh id and the state with the counter advanced. -/
def getUniqueFlowNodeId (s : BinderState) : Nat × BinderState :=
  (s.nextFlowNodeId, { s with nextFlowNodeId := s.nextFlowNodeId + 1 })

/-- `_isCodeUnreachable` (binder.ts:2014-2016). -/
def isCodeUnreachable (s : BinderState) : Bool :=
  s.currentFlowNode.isUnreachable

/-- `_createStartFlowNode` (binder.ts:1657-1663). -/
def createStartFlowNode (s : BinderState) : FlowNode × BinderState :=
  let (id, s) := getUniqueFlowNodeId s
  (.start id, s)

/-- `_createBranchLabel` (binder.ts:1665-1672): allocates a fresh label with
an empty antecedent list and installs it in the label store.  Returns the
label's id. -/
def createBranchLabel (s : BinderState) : Nat × BinderState :=
  let (id, s) := getUniqueFlowNodeId s
  (id, { s with labels := alistSet s.labels id ⟨.branch, id, []⟩ })

/-- `_createLoopLabel` (binder.ts:1674-1681). -/
def createLoopLabel (s : BinderState) : Nat × BinderState :=
  let (id, s) := getUniqueFlowNodeId s
  (id, { s with labels := alistSet s.labels id ⟨.loop, id, []⟩ })

/-- `_finishFlowLabel` (binder.ts:1683-1696): no antecedents → the
unreachable node; exactly one → that antecedent; otherwise the label itself. -/
def finishFlowLabel (node : FlowLabel) : FlowNode :=
  match node.antecedents with
  | [] => unreachableFlowNode
  | [a] => a
  | _ => node.toFlowNode

/-- `_finishFlowLabel` applied to a label id of the store (the source passes
the label object; the store models the object heap).  A missing id cannot
occur in runs of the embedded binder. -/
def finishFlowLabelId (s : BinderState) (labelId : Nat) : FlowNode :=
  match alistGet s.labels labelId with
  | none => unreachableFlowNode
  | some lbl => finishFlowLabel lbl

/-- `_addAntecedent` (binder.ts:2040-2047): skips when the **current** flow
node is unreachable, and deduplicates by id. -/
def addAntecedent (s : BinderState) (labelId : Nat) (antecedent : FlowNode) :
    BinderState :=
  if s.currentFlowNode.isUnreachable then s
  else
    match alistGet s.labels labelId with
    | none => s
    | some lbl =>
      if lbl.antecedents.any (fun existing => existing.id == antecedent.id) then s
      else
        { s with
          labels :=
            alistSet s.labels labelId
              { lbl with antecedents := lbl.antecedents ++ [antecedent] } }

/-- `_addExceptTargets` (binder.ts:2018-2026): when `_currentExceptTargets`
is set, add the node as antecedent to each of its labels. -/
def addExceptTargets (s : BinderState) (flowNode : FlowNode) : BinderState :=
  match s.currentExceptTargets with
  | none => s
  | some targets => targets.foldl (fun s labelId => addAntecedent s labelId flowNode) s

/-- `Map.set(key, key)` on the execution scope's reference map
(`this._currentExecutionScopeReferenceMap!.set(referenceKey, referenceKey)`):
adds the key when absent (re-setting a present key is observably the
identity). -/
def referenceMapSet (s : BinderState) (referenceKey : String) : BinderState :=
  { s with
    currentExecutionScopeReferenceMap :=
      if s.currentExecutionScopeReferenceMap.contains referenceKey then
        s.currentExecutionScopeReferenceMap
      else s.currentExecutionScopeReferenceMap ++ [referenceKey] }

/-- `_createCallFlowNode` (binder.ts:1929-1942): when the code is reachable,
allocate a `Call` flow node over the current flow and advance the current
flow to it; in either case attach the current flow node to the call's parse
node.  (Note: unlike `_createFlowAssignment` and `_createFlowConditional`,
this function does not call `_addExceptTargets`.) -/
def createCallFlowNode (s : BinderState) (nodeId : Nat) : BinderState :=
  let s :=
    if !isCodeUnreachable s then
      let (id, s) := getUniqueFlowNodeId s
      let flowNode : FlowNode := .call id nodeId s.currentFlowNode
      { s with currentFlowNode := flowNode }
    else s
  setFlowNodeTbl s nodeId s.currentFlowNode

/-- `_createAssignmentAliasFlowNode` (binder.ts:1944-1956). -/
def createAssignmentAliasFlowNode (s : BinderState) (targetSymbolId aliasSymbolId : Nat) :
    BinderState :=
  if !isCodeUnreachable s then
    let (id, s) := getUniqueFlowNodeId s
    let flowNode : FlowNode :=
      .assignmentAlias id s.currentFlowNode targetSymbolId aliasSymbolId
    { s with currentFlowNode := flowNode }
  else s

/-- Fuel used for the parent-chain walk of `lookUpSymbolRecursive`; any bound
larger than the scope-tree depth is equivalent, and the embedded runs have
shallow trees. -/
def scopeChainFuel : Nat := 64

/-- `_createFlowAssignment` (binder.ts:1958-1995).  The target is a name or
member-access node.  For a bare name the target symbol id comes from the
recursive scope lookup (the source asserts that it succeeds; a failed lookup
makes the embedding return `none`, modelling the halted analysis).  When the
code is reachable and the target is a supported reference, an `Assignment`
node (with the `Unbind` flag if requested) is allocated, its reference key is
registered, the node is threaded into the except targets and becomes the
current flow.  The side-table write at the end skips targets being marked
unbound that already have an attached flow node. -/
def createFlowAssignment (s : BinderState) (node : Expression) (unbound : Bool := false) :
    Option BinderState :=
  let targetSymbolIdOpt : Option Nat :=
    match node with
    | .name _ value =>
      match lookUpSymbolRecursive s scopeChainFuel s.currentScope value with
      | some (symId, _) => some symId
      | none => none
    | _ => some indeterminateSymbolId
  match targetSymbolIdOpt with
  | none => none
  | some targetSymbolId =>
    let prevFlowNode := s.currentFlowNode
    let s :=
      if !isCodeUnreachable s && isCodeFlowSupportedForReference node then
        let (id, s) := getUniqueFlowNodeId s
        let flowNode : FlowNode :=
          .assignment id node.nodeId s.currentFlowNode targetSymbolId unbound
        let referenceKey := createKeyForReference node
        let s := referenceMapSet s referenceKey
        let s := addExceptTargets s flowNode
        { s with currentFlowNode := flowNode }
      else s
    if !unbound || (getFlowNodeTbl s node.nodeId).isNone then
      some (setFlowNodeTbl s node.nodeId (if unbound then prevFlowNode else s.currentFlowNode))
    else
      some s

/-- `_createFlowWildcardImport` (binder.ts:1997-2012). -/
def createFlowWildcardImport (s : BinderState) (nodeId : Nat) (names : List String) :
    BinderState :=
  let s :=
    if !isCodeUnreachable s then
      let (id, s) := getUniqueFlowNodeId s
      let flowNode : FlowNode := .wildcardImport id nodeId names s.currentFlowNode
      let s := addExceptTargets s flowNode
      { s with currentFlowNode := flowNode }
    else s
  setFlowNodeTbl s nodeId s.currentFlowNode

/-- `_isLogicalExpression` (binder.ts:1758-1771): NOT, AND and OR
expressions. -/
def isLogicalExpression (expression : Expression) : Bool :=
  match expression with
  | .unaryOperation _ operator _ => operator == .not_
  | .binaryOperation _ operator _ _ => operator == .and_ || operator == .or_
  | _ => false

/-- `_isNarrowingExpression` (binder.ts:1773-1878).  The source threads a
mutable `expressionList` accumulator; the embedding threads it explicitly and
returns `(result, accumulator)`. -/
def isNarrowingExpression (expression : Expression) (expressionList : List Expression) :
    Bool × List Expression :=
  match expression with
  | .name _ _ =>
    if isCodeFlowSupportedForReference expression then
      (true, expressionList ++ [expression])
    else (false, expressionList)
  | .memberAccess _ _ _ =>
    if isCodeFlowSupportedForReference expression then
      (true, expressionList ++ [expression])
    else (false, expressionList)
  | .assignmentExpression _ nameNodeId nameValue _ =>
    (true, expressionList ++ [.name nameNodeId nameValue])
  | .binaryOperation _ operator
      (.call callNodeId (.name fnNodeId calleeName) (.cons .simple valueExpression .nil))
      rightExpression =>
    -- Left side is a one-simple-argument call: the "type(X) is Y" test of the
    -- source (binder.ts:1806-1819) can apply.
    let leftExpression : Expression :=
      .call callNodeId (.name fnNodeId calleeName) (.cons .simple valueExpression .nil)
    let isOrIsNotOperator := operator == .is_ || operator == .isNot
    let equalsOrNotEqualsOperator := operator == .equals || operator == .notEquals
    if isOrIsNotOperator || equalsOrNotEqualsOperator then
      -- Look for "X is None", "X is not None", "X == None", "X != None".
      if rightExpression matches .constant _ .none_ then
        isNarrowingExpression leftExpression expressionList
      else if isOrIsNotOperator && calleeName == "type" then
        -- Look for "type(X) is Y" or "type(X) is not Y".
        isNarrowingExpression valueExpression expressionList
      else
        -- binder.ts:1821-1835 fall-through: narrow the left side, and for
        -- "=="/"!=" also the right side.
        let (isLeftNarrowing, expressionList) :=
          isNarrowingExpression leftExpression expressionList
        if isOrIsNotOperator then (isLeftNarrowing, expressionList)
        else
          let (isRightNarrowing, expressionList) :=
            isNarrowingExpression rightExpression expressionList
          (isLeftNarrowing || isRightNarrowing, expressionList)
    else if operator == .in_ then
      -- Look for "X in Y".
      isNarrowingExpression leftExpression expressionList
    else
      (false, expressionList)
  | .binaryOperation _ operator leftExpression rightExpression =>
    let isOrIsNotOperator := operator == .is_ || operator == .isNot
    let equalsOrNotEqualsOperator := operator == .equals || operator == .notEquals
    if isOrIsNotOperator || equalsOrNotEqualsOperator then
      -- Look for "X is None", "X is not None", "X == None", "X != None".
      if rightExpression matches .constant _ .none_ then
        isNarrowingExpression leftExpression expressionList
      else
        -- binder.ts:1821-1835 fall-through (the "type(X)" shape is handled by
        -- the preceding, more specific pattern).
        let (isLeftNarrowing, expressionList) :=
          isNarrowingExpression leftExpression expressionList
        if isOrIsNotOperator then (isLeftNarrowing, expressionList)
        else
          let (isRightNarrowing, expressionList) :=
            isNarrowingExpression rightExpression expressionList
          (isLeftNarrowing || isRightNarrowing, expressionList)
    else if operator == .in_ then
      -- Look for "X in Y".
      isNarrowingExpression leftExpression expressionList
    else
      (false, expressionList)
  | .unaryOperation _ operator operand =>
    if operator == .not_ then isNarrowingExpression operand expressionList
    else (false, expressionList)
  | .augmentedAssignment _ _ _ rightExpression =>
    isNarrowingExpression rightExpression expressionList
  | .call _ (.name _ calleeName) (.cons _ firstArg (.cons _ _ .nil)) =>
    if calleeName == "isinstance" || calleeName == "issubclass" then
      isNarrowingExpression firstArg expressionList
    else (false, expressionList)
  | .call _ (.name _ calleeName) (.cons _ firstArg .nil) =>
    if calleeName == "callable" then
      isNarrowingExpression firstArg expressionList
    else (false, expressionList)
  | _ => (false, expressionList)

/-- `_createFlowConditional` (binder.ts:1721-1756): an unreachable antecedent
is returned unchanged; a static value opposite to the flag yields the
unreachable node; a non-narrowing expression returns the antecedent; otherwise
the extracted reference keys are registered, a `Condition` node is created,
threaded into the except targets, and returned. -/
def createFlowConditional (s : BinderState) (flag : CondFlag) (antecedent : FlowNode)
    (expression : Expression) : FlowNode × BinderState :=
  if antecedent.isUnreachable then (antecedent, s)
  else
    let staticValue := s.fileInfo.staticBoolEval expression
    if (staticValue == some true && flag == .falseCondition) ||
        (staticValue == some false && flag == .trueCondition) then
      (unreachableFlowNode, s)
    else
      match isNarrowingExpression expression [] with
      | (false, _) => (antecedent, s)
      | (true, expressionList) =>
        let s :=
          expressionList.foldl
            (fun s expr => referenceMapSet s (createKeyForReference expr)) s
        let (id, s) := getUniqueFlowNodeId s
        let conditionalFlowNode : FlowNode := .condition id flag expression antecedent
        let s := addExceptTargets s conditionalFlowNode
        (conditionalFlowNode, s)

/-- The walk of an expression appearing as a conditional test, for the
expression fragment the theorems exercise: `visitName` and
`visitMemberAccess` only attach the current flow node to the parse node
(binder.ts:751-761), and constants have no visitor or children.  (Walking the
other expression kinds can create flow nodes and is not needed by the
theorems, which apply `_bindConditional` to this fragment only.) -/
def walkConditionalTestExpression (s : BinderState) (expression : Expression) :
    BinderState :=
  match expression with
  | .name nodeId _ => setFlowNodeTbl s nodeId s.currentFlowNode
  | .memberAccess nodeId leftExpression _ =>
    -- visitMemberAccess attaches the flow node and then walks its children;
    -- within this fragment the base chain consists of names/member accesses.
    let s := setFlowNodeTbl s nodeId s.currentFlowNode
    walkConditionalTestExpression s leftExpression
  | .constant _ _ => s
  | _ => s

/-- `_bindConditional` (binder.ts:1698-1719): set the true/false targets,
walk the test, restore the targets; for a non-logical expression add the
true/false `Condition` nodes over the current flow to the respective
targets. -/
def bindConditional (s : BinderState) (node : Expression)
    (trueTarget falseTarget : Nat) : BinderState :=
  let savedTrueTarget := s.currentTrueTarget
  let savedFalseTarget := s.currentFalseTarget
  let s :=
    { s with currentTrueTarget := some trueTarget, currentFalseTarget := some falseTarget }
  let s := walkConditionalTestExpression s node
  let s :=
    { s with currentTrueTarget := savedTrueTarget, currentFalseTarget := savedFalseTarget }
  if !isLogicalExpression node then
    let (trueNode, s) := createFlowConditional s .trueCondition s.currentFlowNode node
    let s := addAntecedent s trueTarget trueNode
    let (falseNode, s) := createFlowConditional s .falseCondition s.currentFlowNode node
    addAntecedent s falseTarget falseNode
  else s

/-- `_bindNameToScope` (binder.ts:2049-2079): names recorded in the
non-local-bindings map stay unbound here; otherwise an existing symbol is
kept, and a missing one is created with `InitiallyUnbound | ClassMember`
flags.  When the new symbol is added to a class scope and the parent scope
holds a same-named symbol, an `AssignmentAlias` flow node is emitted; in stub
files private-looking names are marked externally hidden.  Returns the bound
symbol's id (or `none`).  (The optional `addedSymbols` recording map of the
source is not used by the statement fragment and is omitted.) -/
def bindNameToScope (s : BinderState) (scopeId : Nat) (name : String) :
    Option Nat × BinderState :=
  if (salistGet s.notLocalBindings name).isNone then
    -- Don't overwrite an existing symbol.
    match scopeLookUpSymbol s scopeId name with
    | some symId => (some symId, s)
    | none =>
      let (symId, s) :=
        scopeAddSymbol s scopeId name
          { initiallyUnbound := true, classMember := true, externallyHidden := false }
      -- Handle the case where a new symbol is being added to a class but the
      -- expression assigned to it uses a same-named symbol of an outer scope.
      let s :=
        match alistGet s.scopes scopeId with
        | some sc =>
          if sc.type = ScopeType.class_ then
            match sc.parent with
            | some parentId =>
              match scopeLookUpSymbol s parentId name with
              | some aliasSymbolId => createAssignmentAliasFlowNode s symId aliasSymbolId
              | none => s
            | none => s
          else s
        | none => s
      let s :=
        if s.fileInfo.isStubFile && isPrivateOrProtectedName name then
          symbolSetExternallyHidden s symId
        else s
      (some symId, s)
  else
    (none, s)

/-! ## Statement walker (fragment) -/

/-- In-place update of a mutable `FunctionDeclaration` (the store entry keyed
by the declaring node's id). -/
def updateFunctionDecl (s : BinderState) (fnNodeId : Nat)
    (f : FunctionDeclData → FunctionDeclData) : BinderState :=
  match alistGet s.functionDecls fnNodeId with
  | none => s
  | some d => { s with functionDecls := alistSet s.functionDecls fnNodeId (f d) }

/-- `_bindYield` (binder.ts:2643-2667) for a bare `yield` statement of the
fragment (the fragment walks yields only inside function bodies, so the
yield-outside-function and yield-from-in-async diagnostics cannot fire, and a
bare yield has no sub-expression to walk): append the statement to the target
function declaration's yield list and set `isGenerator`, then attach the
current flow node. -/
def bindYield (s : BinderState) (nodeId : Nat) : BinderState :=
  let s :=
    match s.targetFunctionDeclaration with
    | some fnId =>
      updateFunctionDecl s fnId fun d =>
        { d with yieldStatements := d.yieldStatements ++ [nodeId], isGenerator := true }
    | none => s
  setFlowNodeTbl s nodeId s.currentFlowNode

/-- `visitReturn` (binder.ts:718-739) for a bare `return` of the fragment
(no return expression to walk): record the statement on the target function
declaration, attach the flow node, fan into the return target and every
active finally target, and make the current flow unreachable. -/
def visitReturn (s : BinderState) (nodeId : Nat) : BinderState :=
  let s :=
    match s.targetFunctionDeclaration with
    | some fnId =>
      updateFunctionDecl s fnId fun d =>
        { d with returnStatements := d.returnStatements ++ [nodeId] }
    | none => s
  let s := setFlowNodeTbl s nodeId s.currentFlowNode
  let s :=
    match s.currentReturnTarget with
    | some target => addAntecedent s target s.currentFlowNode
    | none => s
  let s := s.finallyTargets.foldl (fun s target => addAntecedent s target s.currentFlowNode) s
  { s with currentFlowNode := unreachableFlowNode }

/-- `_deferBinding` (binder.ts:2620-2627): push a task capturing the current
scope, non-local-bindings map and reference map, plus the callback. -/
def deferBinding (s : BinderState) (callback : DeferredCallbackData) : BinderState :=
  { s with
    deferredBindingTasks :=
      s.deferredBindingTasks ++
        [{ scope := s.currentScope
           nonLocalBindingsMap := s.notLocalBindings
           codeFlowExpressionMap := s.currentExecutionScopeReferenceMap
           callback }] }

/-- `visitFunction` (binder.ts:369-491) for the fragment's `def` statements
(no decorators, parameter annotations, default values or return annotation to
walk, and no enclosing class, so `isMethod` is false and no `__class__`
symbol is added): bind the function name, create its declaration (the
mutable part goes to the `functionDecls` store, the tagged variant to the
symbol's declaration list), open a new function scope — whose parent is the
scope of the nearest enclosing function or module node, which for this
fragment is the current scope — allocate its fresh reference map and
non-local-bindings map, defer the body-binding task capturing them, restore
the maps and scope, and finally emit the assignment flow node for the
function name in the outer scope.  (The `setScope`, `setDeclaration` and
`setCodeFlowExpressions` side-table writes are not modelled: no theorem reads
them.) -/
def visitFunction (s : BinderState) (nodeId nameNodeId : Nat) (name : String)
    (params : List (Nat × String)) (suite : StatementList) : Option BinderState :=
  let (symbolOpt, s) := bindNameToScope s s.currentScope name
  let s :=
    { s with
      functionDecls :=
        alistSet s.functionDecls nodeId
          { isMethod := false
            isGenerator := false
            returnStatements := []
            yieldStatements := []
            raiseStatements := [] } }
  let s :=
    match symbolOpt with
    | some symId =>
      symbolAddDeclaration s symId
        (.function_ nodeId s.fileInfo.filePath s.fileInfo.moduleName)
    | none => s
  -- _createNewScope(ScopeType.Function, functionOrModuleScope, callback)
  -- (binder.ts:2160-2181), with the deferred-binding enqueue as the callback
  -- body.
  let prevScope := s.currentScope
  let newScopeId := s.nextScopeId
  let s :=
    { s with
      nextScopeId := s.nextScopeId + 1
      scopes :=
        alistSet s.scopes newScopeId
          { type := ScopeType.function, parent := some prevScope, symbolTable := [] }
      currentScope := newScopeId }
  let prevReferenceMap := s.currentExecutionScopeReferenceMap
  let s := { s with currentExecutionScopeReferenceMap := [] }
  let prevNonLocalBindings := s.notLocalBindings
  let s := { s with notLocalBindings := [] }
  let s := deferBinding s (.functionBody nodeId params suite)
  let s :=
    { s with
      currentExecutionScopeReferenceMap := prevReferenceMap
      currentScope := prevScope
      notLocalBindings := prevNonLocalBindings }
  -- _createAssignmentTargetFlowNodes(node.name, false, false) → a single
  -- _createFlowAssignment on the name node.
  createFlowAssignment s (.name nameNodeId name) false

mutual
/-- The statement dispatch of the parse-tree walker for the fragment: each
statement kind is handled by the corresponding overridden visitor. -/
def walkStatement (s : BinderState) : Statement → Option BinderState
  | .pass _ => some s
  | .ret nodeId => some (visitReturn s nodeId)
  | .yieldStmt nodeId => some (bindYield s nodeId)
  | .functionDef nodeId nameNodeId name params suite =>
    visitFunction s nodeId nameNodeId name params suite

/-- `_walkStatementsAndReportUnreachable` (binder.ts:1629-1655): attach the
current flow to each statement; once the current flow is unreachable, stop
walking and instead scan each remaining statement for yields, marking the
target function declaration a generator when one is found.  The
`foundUnreachableStatement` accumulator of the source loop is the second
argument. -/
def walkStatementsAux (s : BinderState) (statements : StatementList)
    (foundUnreachableStatement : Bool) : Option BinderState :=
  match statements with
  | .nil => some s
  | .cons statement rest =>
    let s := setFlowNodeTbl s statement.nodeId s.currentFlowNode
    let foundUnreachableStatement := foundUnreachableStatement || isCodeUnreachable s
    if !foundUnreachableStatement then
      match walkStatement s statement with
      | none => none
      | some s => walkStatementsAux s rest foundUnreachableStatement
    else
      -- If we're within a function, look for unreachable yield statements,
      -- because they affect the behavior of the function (making it a
      -- generator) even if they're never executed.
      let s :=
        match s.targetFunctionDeclaration with
        | some fnId =>
          match alistGet s.functionDecls fnId with
          | some d =>
            if !d.isGenerator && containsYield statement then
              updateFunctionDecl s fnId fun d => { d with isGenerator := true }
            else s
          | none => s
        | none => s
      walkStatementsAux s rest foundUnreachableStatement
end

/-- Entry point of `_walkStatementsAndReportUnreachable`. -/
def walkStatementsAndReportUnreachable (s : BinderState) (statements : StatementList) :
    Option BinderState :=
  walkStatementsAux s statements false

/-- The deferred function-body callback enqueued by `visitFunction`
(binder.ts:438-482): create a start node, bind each parameter (parameter
declaration + assignment flow), set the target function declaration and a
fresh return label, walk the suite, fan the final flow into the return label
and finish it.  (The `setAfterFlowNode` side-table writes are not modelled:
no theorem reads them.) -/
def runDeferredCallback (s : BinderState) : DeferredCallbackData → Option BinderState
  | .functionBody fnNodeId params suite =>
    let (startNode, s) := createStartFlowNode s
    let s := { s with currentFlowNode := startNode }
    let bindParam : Option BinderState → Nat × String → Option BinderState :=
      fun acc (paramNodeId, paramName) =>
        match acc with
        | none => none
        | some s =>
          let (symbolOpt, s) := bindNameToScope s s.currentScope paramName
          let s :=
            match symbolOpt with
            | some symId =>
              symbolAddDeclaration s symId
                (.parameter paramNodeId s.fileInfo.filePath s.fileInfo.moduleName)
            | none => s
          createFlowAssignment s (.name paramNodeId paramName) false
    match params.foldl bindParam (some s) with
    | none => none
    | some s =>
      let s := { s with targetFunctionDeclaration := some fnNodeId }
      let (returnTarget, s) := createBranchLabel s
      let s := { s with currentReturnTarget := some returnTarget }
      match walkStatementsAndReportUnreachable s suite with
      | none => none
      | some s =>
        let s := addAntecedent s returnTarget s.currentFlowNode
        some s

/-- `_bindDeferred` (binder.ts:2629-2641): drain the task queue front-first;
before invoking each callback, restore the captured scope, non-local-bindings
map and reference map, and reset the nested-except depth to zero.  Tasks
enqueued by a callback land at the back of the same queue.  `fuel` bounds the
number of drained tasks (the source loop terminates because the nesting of
function bodies is finite). -/
def bindDeferred (s : BinderState) : Nat → Option BinderState
  | 0 => if s.deferredBindingTasks.isEmpty then some s else none
  | fuel + 1 =>
    match s.deferredBindingTasks with
    | [] => some s
    | nextItem :: rest =>
      -- Reset the state
      let s :=
        { s with
          deferredBindingTasks := rest
          currentScope := nextItem.scope
          notLocalBindings := nextItem.nonLocalBindingsMap
          nestedExceptDepth := 0
          currentExecutionScopeReferenceMap := nextItem.codeFlowExpressionMap }
      match runDeferredCallback s nextItem.callback with
      | none => none
      | some s => bindDeferred s fuel

/-! ## Import binding (translated from `binder.ts`) -/

/-- The module-name part of an `ImportFromNode` / `ImportAsNode`
(`parseNodes.ts` `ModuleNameNode`): leading dots and the dotted name parts
(each a name node: id and value). -/
structure ModuleNameData where
  leadingDots : Nat
  nameParts : List (Nat × String)

/-- `_getWildcardImportNames` (binder.ts:1612-1627): the `__all__` names when
advertised, otherwise every symbol-table name that does not begin with an
underscore. -/
def getWildcardImportNames (lookupInfo : ImportLookupResult) : List String :=
  match lookupInfo.dunderAllNames with
  | some namesToImport => namesToImport
  | none =>
    -- Import all names that don't begin with an underscore.
    (lookupInfo.symbolTable.map (·.1)).filter (fun name => !strStartsWithUnderscore name)

/-- `_addImplicitImportsToLoaderActions` (binder.ts:2536-2553): merge the
implicit imports of the import result into the loader-actions node, updating the
path of an existing child and adding missing children with empty subtrees. -/
def addImplicitImportsToLoaderActions (importResult : ImportResult)
    (loaderActions : ModuleLoaderActions) : ModuleLoaderActions :=
  importResult.implicitImports.foldl
    (fun loaderActions implicitImport =>
      match salistGet loaderActions.implicitImports implicitImport.name with
      | some existingLoaderAction =>
        .mk loaderActions.path
          (salistSet loaderActions.implicitImports implicitImport.name
            (.mk implicitImport.path existingLoaderAction.implicitImports))
      | none =>
        .mk loaderActions.path
          (salistSet loaderActions.implicitImports implicitImport.name
            (.mk implicitImport.path [])))
    loaderActions

/-- The name-part loop of `_createAliasDeclarationForMultipartImportName`
(binder.ts:1557-1590): descend the loader-actions tree along the remaining
dotted name parts (creating empty children as needed); at the last part set
its resolved path and merge the implicit imports; stop early when the
resolved-paths list is exhausted.  `idx` is the loop index `i`; `parts` the
remaining name-part values. -/
def fillLoaderActionsPath (importInfo : ImportResult) (parts : List String)
    (idx : Nat) (curLoaderActions : ModuleLoaderActions) : ModuleLoaderActions :=
  match parts with
  | [] => curLoaderActions
  | namePartValue :: rest =>
    if idx ≥ importInfo.resolvedPaths.length then curLoaderActions
    else
      let loaderActions :=
        (salistGet curLoaderActions.implicitImports namePartValue).getD (.mk "" [])
      let loaderActions :=
        if rest.isEmpty then
          addImplicitImportsToLoaderActions importInfo
            (.mk (importInfo.resolvedPaths.getD idx "") loaderActions.implicitImports)
        else loaderActions
      let loaderActions := fillLoaderActionsPath importInfo rest (idx + 1) loaderActions
      .mk curLoaderActions.path
        (salistSet curLoaderActions.implicitImports namePartValue loaderActions)

/-- `_createAliasDeclarationForMultipartImportName` (binder.ts:1515-1610).
When the import resolved (found, not a native library, with resolved paths),
build — or extend in place — the Alias declaration whose `firstNamePart`
matches the first dotted part, filling the loader-actions tree along the
dotted parts; otherwise append a dummy Alias declaration with the bogus
sentinel path so the symbol gets an unknown (rather than unbound) type. -/
def createAliasDeclarationForMultipartImportName (s : BinderState)
    (node : ModuleNameData) (nodeId : Nat) (importAlias : Option Nat)
    (importInfo : Option ImportResult) (symbolId : Nat) : BinderState :=
  let firstNamePartValue := ((node.nameParts.headD (0, "")).2 : String)
  match importInfo with
  | some importInfo =>
    if importInfo.isImportFound && !importInfo.isNativeLib &&
        importInfo.resolvedPaths.length > 0 then
      match alistGet s.symbols symbolId with
      | none => s
      | some sym =>
        -- See if there's already a matching alias declaration for this
        -- import; if so, update it rather than creating a new one.
        let existingIdx :=
          sym.declarations.findIdx?
            (fun decl => decl.isAliasWithFirstNamePart firstNamePartValue)
        let startDecl : Declaration :=
          match existingIdx with
          | some i =>
            sym.declarations.getD i
              (.alias_ nodeId "" (importAlias.isSome) importInfo.importName none
                (some firstNamePartValue) [])
          | none =>
            .alias_ nodeId "" (importAlias.isSome) importInfo.importName none
              (some firstNamePartValue) []
        let newDecl : Declaration :=
          match startDecl with
          | .alias_ dNodeId dPath dUses dModule dSymName dFirst dImplicit =>
            -- Add the implicit imports for this module if it's the last name
            -- part we're resolving; otherwise fill in the remaining parts
            -- (the declaration's own path is left untouched in that case).
            if importAlias.isSome || node.nameParts.length == 1 then
              let la :=
                addImplicitImportsToLoaderActions importInfo
                  (.mk (importInfo.resolvedPaths.getD
                    (importInfo.resolvedPaths.length - 1) "") dImplicit)
              .alias_ dNodeId la.path dUses dModule dSymName dFirst la.implicitImports
            else
              let la :=
                fillLoaderActionsPath importInfo
                  ((node.nameParts.map (·.2)).drop 1) 1 (.mk "" dImplicit)
              .alias_ dNodeId dPath dUses dModule dSymName dFirst la.implicitImports
          | other => other
        match existingIdx with
        | some i =>
          { s with
            symbols :=
              alistSet s.symbols symbolId
                { sym with declarations := sym.declarations.set i newDecl } }
        | none =>
          { s with
            symbols :=
              alistSet s.symbols symbolId
                { sym with declarations := sym.declarations ++ [newDecl] } }
    else
      -- If we couldn't resolve the import, create a dummy declaration with a
      -- bogus path so it gets an unknown type (rather than an unbound type)
      -- at analysis time.
      symbolAddDeclaration s symbolId
        (.alias_ nodeId "*** unresolved ***" importAlias.isSome "" none none [])
  | none =>
    symbolAddDeclaration s symbolId
      (.alias_ nodeId "*** unresolved ***" importAlias.isSome "" none none [])

/-- An `ImportFromNode` of the parse-node model (wildcard form): node id and
module name. -/
structure ImportFromNodeData where
  nodeId : Nat
  module : ModuleNameData

/-- `_addImplicitFromImport` (binder.ts:1505-1513): bind the first dotted
name part in the current scope, give it a multipart alias declaration, and
emit an assignment flow for it. -/
def addImplicitFromImport (s : BinderState) (node : ImportFromNodeData)
    (importInfo : Option ImportResult) : Option BinderState :=
  let firstPart := node.module.nameParts.headD (0, "")
  let symbolName := firstPart.2
  let (symbolOpt, s) := bindNameToScope s s.currentScope symbolName
  let s :=
    match symbolOpt with
    | some symId =>
      createAliasDeclarationForMultipartImportName s node.module node.nodeId none
        importInfo symId
    | none => s
  createFlowAssignment s (.name firstPart.1 symbolName) false

/-- The wildcard-import branch of `visitImportFrom` (binder.ts:1184-1265,
`node.isWildcardImport` case).  `resolvedPath` is the last resolved path of a
found import (binder.ts:1188-1191).  For a package-init module's single-dot
relative import, the implicit submodule symbol is bound first unless
immediately replaced.  Every wildcard name whose source symbol is not flagged
ignored-for-protocol-match is bound, given an Alias declaration, and
collected; a `WildcardImport` flow node carrying the collected names is then
recorded.  A wildcard name missing from the source symbol table makes the
source crash on a non-null assertion (`symbolTable.get(name)!`), modelled as
`none`.  (The wildcard-inside-class-or-function diagnostic and the
typing-import bookkeeping of the source have no effect on the state modelled
here.) -/
def visitImportFromWildcard (s : BinderState) (node : ImportFromNodeData)
    (importInfo : Option ImportResult) : Option BinderState :=
  let resolvedPath :=
    match importInfo with
    | some ii =>
      if ii.isImportFound then ii.resolvedPaths.getD (ii.resolvedPaths.length - 1) ""
      else ""
    | none => ""
  let isModuleInitFile :=
    s.fileInfo.fileNameWithoutExtension == "__init__" &&
      node.module.leadingDots == 1 && node.module.nameParts.length > 0
  match importInfo with
  | none => some s
  | some importInfo =>
    let afterLookup : Option (List String × BinderState) :=
      match s.fileInfo.importLookup resolvedPath with
      | none => some ([], s)
      | some lookupInfo =>
        let wildcardNames := getWildcardImportNames lookupInfo
        let sOpt :=
          if isModuleInitFile then
            -- If the symbol is going to be immediately replaced with a
            -- same-named imported symbol, skip this.
            let isImmediatelyReplaced :=
              wildcardNames.any
                (fun name => name == (node.module.nameParts.headD (0, "")).2)
            if !isImmediatelyReplaced then
              addImplicitFromImport s node (some importInfo)
            else some s
          else some s
        match sOpt with
        | none => none
        | some s =>
          wildcardNames.foldl
            (fun acc name =>
              match acc with
              | none => none
              | some (names, s) =>
                match salistGet lookupInfo.symbolTable name with
                | none => none
                | some tableSymbol =>
                  -- Don't include the ignored names in the symbol table.
                  if !tableSymbol.isIgnoredForProtocolMatch then
                    let (symbolOpt, s) := bindNameToScope s s.currentScope name
                    match symbolOpt with
                    | some symId =>
                      let s :=
                        symbolAddDeclaration s symId
                          (.alias_ node.nodeId resolvedPath false
                            s.fileInfo.moduleName (some name) none [])
                      some (names ++ [name], s)
                    | none => some (names, s)
                  else some (names, s))
            (some ([], s))
    match afterLookup with
    | none => none
    | some (names, s) => some (createFlowWildcardImport s node.nodeId names)

/-! ## Spec-side definitions

These definitions follow the wording of spec sentences (or of amended
claims), for comparison against the translated code. -/

/-- The claim's "statically evaluates to the boolean opposite of the flag"
(the pruning test of `_createFlowConditional`, binder.ts:1729-1732). -/
def staticallyContradictsFlag (s : BinderState) (flag : CondFlag)
    (expression : Expression) : Bool :=
  (s.fileInfo.staticBoolEval expression == some true && flag == .falseCondition) ||
    (s.fileInfo.staticBoolEval expression == some false && flag == .trueCondition)

/-- Spec-side characterization of generator marking (the amended claim C4):
walking a function body marks the function a generator exactly when some
statement of the body either is reached with the flow still live and is
itself a yield statement, or is skipped as unreachable (once the flow has
died) while syntactically containing a yield — possibly one nested inside an
inner `def`.  A yield inside an inner `def` that is walked reachably does
not mark the outer function.  The boolean argument is whether the flow is
live at the start of the suite. -/
def specGeneratorMark : StatementList → Bool → Bool
  | .nil, _ => false
  | .cons st rest, reachable =>
    if reachable then
      match st with
      | .yieldStmt _ => true
      | .ret _ => specGeneratorMark rest false
      | _ => specGeneratorMark rest true
    else
      containsYield st || specGeneratorMark rest false

/-- The node ids of the top-level `def` statements of a suite (the only
statements whose walk creates function-declaration store entries). -/
def suiteFunctionDefIds : StatementList → List Nat
  | .nil => []
  | .cons (.functionDef nid _ _ _ _) rest => nid :: suiteFunctionDefIds rest
  | .cons _ rest => suiteFunctionDefIds rest

/-- The wildcard-import name set exactly as claim C7 states it: with an
explicit export list, precisely the names of that list; otherwise the
symbol-table names that do not start with an underscore and are not flagged
ignored-for-protocol-match. -/
def claimWildcardImportNames (lookupInfo : ImportLookupResult) : List String :=
  match lookupInfo.dunderAllNames with
  | some names => names
  | none =>
    (lookupInfo.symbolTable.filter
        (fun (p : String × LookupSymbol) =>
          !strStartsWithUnderscore p.1 && !p.2.isIgnoredForProtocolMatch)).map
      (fun (p : String × LookupSymbol) => p.1)

/-- The amended wildcard-import name set: the ignored-for-protocol-match
filter applies in **both** cases — with an explicit export list, the listed
names whose table symbols are not so flagged; otherwise the non-underscore
table names whose symbols are not so flagged. -/
def amendedWildcardImportNames (lookupInfo : ImportLookupResult) : List String :=
  let base :=
    match lookupInfo.dunderAllNames with
    | some names => names
    | none =>
      (lookupInfo.symbolTable.map (fun (p : String × LookupSymbol) => p.1)).filter
        (fun n => !strStartsWithUnderscore n)
  base.filter (fun name =>
    ((salistGet lookupInfo.symbolTable name).map
        (fun (sym : LookupSymbol) => !sym.isIgnoredForProtocolMatch)).getD false)

/-! ## Concrete fixtures for witnesses and counterexamples -/

/-- A concrete static evaluator recognising the boolean constants (an
instance of the advisory helper's contract). -/
def testStaticBoolEval : Expression → Option Bool
  | .constant _ .true_ => some true
  | .constant _ .false_ => some false
  | _ => none

/-- A concrete file-info record. -/
def testFileInfo : FileInfo where
  filePath := "lib.py"
  moduleName := "lib"
  isStubFile := false
  fileNameWithoutExtension := "lib"
  staticBoolEval := testStaticBoolEval
  importLookup := fun _ => none

/-- A fresh binder state at the start of a module body: one module scope
(id 0), a reachable start flow node, empty stores. -/
def baseState : BinderState where
  fileInfo := testFileInfo
  nextFlowNodeId := 2
  currentFlowNode := .start 1
  labels := []
  currentExceptTargets := none
  finallyTargets := []
  currentReturnTarget := none
  currentTrueTarget := none
  currentFalseTarget := none
  currentExecutionScopeReferenceMap := []
  flowSideTable := []
  nextSymbolId := 1
  nextScopeId := 1
  currentScope := 0
  scopes := [(0, { type := ScopeType.module, parent := none, symbolTable := [] })]
  symbols := []
  notLocalBindings := []
  functionDecls := []
  targetFunctionDeclaration := none
  nestedExceptDepth := 0
  deferredBindingTasks := []

/-- Membership of an antecedent id in a stored label. -/
def labelHasAntecedentId (s : BinderState) (l : Nat) (i : Nat) : Prop :=
  ∃ lbl, alistGet s.labels l = some lbl ∧ ∃ x ∈ lbl.antecedents, x.id = i

/-- Membership of an antecedent node in a stored label. -/
def labelHasAntecedentNode (s : BinderState) (l : Nat) (a : FlowNode) : Prop :=
  ∃ lbl, alistGet s.labels l = some lbl ∧ a ∈ lbl.antecedents

/-- Invariant (a) of the flow-node data model: in every stored label, the
antecedent ids are pairwise distinct. -/
def labelsNodupInv (s : BinderState) : Prop :=
  ∀ k lbl, alistGet s.labels k = some lbl → (lbl.antecedents.map FlowNode.id).Nodup

/-- A binder state inside a try block: one empty except-target label (id 100)
is active, and the current flow is the reachable start node. -/
def tryBlockState : BinderState :=
  { baseState with
    currentExceptTargets := some [100]
    labels := [(100, ⟨.branch, 100, []⟩)] }

/-- The state at the start of an `if` statement's binding: two fresh branch
labels (the then/else labels, ids 2 and 3) have been allocated. -/
def ifEntryState : BinderState := (createBranchLabel (createBranchLabel baseState).2).2

/-- A concrete deferred-binding task used to exercise the deferred queue. -/
def c5task : DeferredBindingTask :=
  { scope := 0
    nonLocalBindingsMap := []
    codeFlowExpressionMap := []
    callback := .functionBody 1 [] StatementList.nil }

/-- The base state with a single pending deferred-binding task. -/
def c5state : BinderState := { baseState with deferredBindingTasks := [c5task] }

/-- The `isGenerator` flag recorded for the function declaration with node id
`fid`, as an `Option` (none when no declaration entry exists). -/
def genOf (s : BinderState) (fid : Nat) : Option Bool :=
  (alistGet s.functionDecls fid).map fun d => d.isGenerator

/-- Body of `f` in the first C4 program: a reachable nested `def g` whose
body is a single `yield`. -/
def cexFSuite : StatementList :=
  .cons (.functionDef 10 11 "g" [] (.cons (.yieldStmt 12) .nil)) .nil

/-- First C4 program: `def f: def g: yield`. -/
def cexProgram : StatementList := .cons (.functionDef 1 2 "f" [] cexFSuite) .nil

/-- The full binder run (module walk plus deferred queue) on `cexProgram`. -/
def cexRun : Option BinderState :=
  match walkStatementsAndReportUnreachable baseState cexProgram with
  | none => none
  | some s => bindDeferred s 5

/-- Body of `f` in the second C4 program: a `return` followed by an
unreachable nested `def g` whose body is a single `yield`. -/
def cexBFSuite : StatementList :=
  .cons (.ret 20)
    (.cons (.functionDef 10 11 "g" [] (.cons (.yieldStmt 12) .nil)) .nil)

/-- Second C4 program: `def f: return; def g: yield`. -/
def cexBProgram : StatementList := .cons (.functionDef 1 2 "f" [] cexBFSuite) .nil

/-- The full binder run on `cexBProgram`. -/
def cexBRun : Option BinderState :=
  match walkStatementsAndReportUnreachable baseState cexBProgram with
  | none => none
  | some s => bindDeferred s 5

/-- A state in the middle of binding a function body: the target function
declaration is node 1 with a not-yet-generator declaration entry. -/
def c4WitState : BinderState :=
  { baseState with
    targetFunctionDeclaration := some 1
    functionDecls :=
      [(1, { isMethod := false
             isGenerator := false
             returnStatements := []
             yieldStatements := []
             raiseStatements := [] })] }

/-- A function body with a yield after a return: the yield is unreachable. -/
def c4WitSuite : StatementList := .cons (.ret 20) (.cons (.yieldStmt 21) .nil)

/-- The path the wildcard-import code looks up: the last resolved path of a
found import, empty otherwise (binder.ts:1188-1191). -/
def importResolvedPath (ii : ImportResult) : String :=
  if ii.isImportFound then ii.resolvedPaths.getD (ii.resolvedPaths.length - 1) ""
  else ""

/-- A looked-up module advertising `__all__ = ["A"]` whose symbol `A` is
flagged ignored-for-protocol-match. -/
def c7LookupInfo : ImportLookupResult :=
  { symbolTable := [("A", { isIgnoredForProtocolMatch := true })]
    dunderAllNames := some ["A"] }

/-- File info resolving `mod.py` to `c7LookupInfo`. -/
def c7FileInfo : FileInfo :=
  { testFileInfo with
    importLookup := fun p => if p == "mod.py" then some c7LookupInfo else none }

/-- Base state over `c7FileInfo`. -/
def c7State : BinderState := { baseState with fileInfo := c7FileInfo }

/-- A found import result resolving to `mod.py`. -/
def c7ImportResult : ImportResult :=
  { isImportFound := true
    isNativeLib := false
    importName := "m"
    resolvedPaths := ["mod.py"]
    implicitImports := [] }

/-- The wildcard `from m import *` node. -/
def c7Node : ImportFromNodeData :=
  { nodeId := 50, module := { leadingDots := 0, nameParts := [(51, "m")] } }

/-- The full wildcard-import run on the `__all__`-with-ignored-symbol module. -/
def c7Run : Option BinderState :=
  visitImportFromWildcard c7State c7Node (some c7ImportResult)

/-- A looked-up module without `__all__`: `A` importable, `_b` underscored,
`C` flagged ignored-for-protocol-match. -/
def c7WitLookup : ImportLookupResult :=
  { symbolTable :=
      [("A", { isIgnoredForProtocolMatch := false }),
       ("_b", { isIgnoredForProtocolMatch := false }),
       ("C", { isIgnoredForProtocolMatch := true })]
    dunderAllNames := none }

/-- File info resolving `mod.py` to `c7WitLookup`. -/
def c7WitFileInfo : FileInfo :=
  { testFileInfo with
    importLookup := fun p => if p == "mod.py" then some c7WitLookup else none }

/-- Base state over `c7WitFileInfo`. -/
def c7WitState : BinderState := { baseState with fileInfo := c7WitFileInfo }

/-! ## Store lemmas -/

theorem alistGet_set_self {α : Type} (l : List (Nat × α)) (k : Nat) (v : α) :
    alistGet (alistSet l k v) k = some v := by
  induction l with
  | nil => simp [alistGet, alistSet]
  | cons hd tl ih =>
    obtain ⟨k', v'⟩ := hd
    by_cases h : k' = k <;> simp [alistGet, alistSet, h, ih]

theorem alistGet_set_ne {α : Type} (l : List (Nat × α)) (k k' : Nat) (v : α)
    (h : k' ≠ k) : alistGet (alistSet l k v) k' = alistGet l k' := by
  induction l with
  | nil =>
    simp only [alistSet, alistGet]
    rw [if_neg (Ne.symm h)]
  | cons hd tl ih =>
    obtain ⟨k'', v''⟩ := hd
    by_cases h2 : k'' = k
    · subst h2
      simp only [alistSet, if_pos rfl, alistGet]
      rw [if_neg (Ne.symm h), if_neg (Ne.symm h)]
    · by_cases h3 : k'' = k'
      · subst h3
        simp [alistSet, if_neg h2, alistGet]
      · simp only [alistSet, if_neg h2, alistGet, if_neg h3, ih]

theorem alistGet_set_isSome {α : Type} (l : List (Nat × α)) (k k' : Nat) (v : α)
    (h : (alistGet l k').isSome) : (alistGet (alistSet l k v) k').isSome := by
  by_cases hk : k' = k
  · subst hk; simp [alistGet_set_self]
  · rwa [alistGet_set_ne l k k' v hk]

theorem salistGet_set_self {α : Type} (l : List (String × α)) (k : String) (v : α) :
    salistGet (salistSet l k v) k = some v := by
  induction l with
  | nil => simp [salistGet, salistSet]
  | cons hd tl ih =>
    obtain ⟨k', v'⟩ := hd
    by_cases h : k' = k <;> simp [salistGet, salistSet, h, ih]

theorem salistGet_set_ne {α : Type} (l : List (String × α)) (k k' : String) (v : α)
    (h : k' ≠ k) : salistGet (salistSet l k v) k' = salistGet l k' := by
  induction l with
  | nil =>
    simp only [salistSet, salistGet]
    rw [if_neg (Ne.symm h)]
  | cons hd tl ih =>
    obtain ⟨k'', v''⟩ := hd
    by_cases h2 : k'' = k
    · subst h2
      simp only [salistSet, if_pos rfl, salistGet]
      rw [if_neg (Ne.symm h), if_neg (Ne.symm h)]
    · by_cases h3 : k'' = k'
      · subst h3
        simp [salistSet, if_neg h2, salistGet]
      · simp only [salistSet, if_neg h2, salistGet, if_neg h3, ih]

/-! ## Frame lemmas for `_addAntecedent` and friends -/

/-- `_addAntecedent` only mutates the label store. -/
theorem addAntecedent_eq (s : BinderState) (l : Nat) (a : FlowNode) :
    addAntecedent s l a = { s with labels := (addAntecedent s l a).labels } := by
  unfold addAntecedent
  split
  · rfl
  · split
    · rfl
    · split <;> rfl

theorem addAntecedent_currentFlowNode (s : BinderState) (l : Nat) (a : FlowNode) :
    (addAntecedent s l a).currentFlowNode = s.currentFlowNode := by
  conv_lhs => rw [addAntecedent_eq]

theorem addAntecedent_labels_isSome (s : BinderState) (l l' : Nat) (a : FlowNode)
    (h : (alistGet s.labels l').isSome) :
    (alistGet (addAntecedent s l a).labels l').isSome := by
  unfold addAntecedent
  split
  · exact h
  · split
    · exact h
    · split
      · exact h
      · exact alistGet_set_isSome _ _ _ _ h

theorem addAntecedent_mem (s : BinderState) (l : Nat) (a : FlowNode)
    (hreach : s.currentFlowNode.isUnreachable = false)
    (hlbl : (alistGet s.labels l).isSome) :
    labelHasAntecedentId (addAntecedent s l a) l a.id := by
  obtain ⟨lbl, hget⟩ := Option.isSome_iff_exists.mp hlbl
  unfold addAntecedent labelHasAntecedentId
  rw [hreach, hget]
  simp only [Bool.false_eq_true, if_false]
  split
  · next hdup =>
    obtain ⟨x, hx, hxid⟩ := List.any_eq_true.mp hdup
    exact ⟨lbl, hget, x, hx, by simpa using hxid⟩
  · refine ⟨⟨lbl.kind, lbl.id, lbl.antecedents ++ [a]⟩, ?_, a, ?_, rfl⟩
    · show alistGet (alistSet s.labels l _) l = _
      exact alistGet_set_self _ _ _
    · simp

theorem addAntecedent_preserves_mem (s : BinderState) (l l' : Nat) (a : FlowNode)
    (i : Nat) (h : labelHasAntecedentId s l' i) :
    labelHasAntecedentId (addAntecedent s l a) l' i := by
  obtain ⟨lbl, hget, x, hx, hxid⟩ := h
  unfold addAntecedent
  split
  · exact ⟨lbl, hget, x, hx, hxid⟩
  · split
    · next hnone =>
      exact ⟨lbl, hget, x, hx, hxid⟩
    · split
      · exact ⟨lbl, hget, x, hx, hxid⟩
      · next lbl2 hget2 _ =>
        by_cases hl : l' = l
        · subst hl
          rw [hget] at hget2
          cases hget2
          refine ⟨⟨lbl.kind, lbl.id, lbl.antecedents ++ [a]⟩, ?_, x, ?_, hxid⟩
          · show alistGet (alistSet s.labels l' _) l' = _
            exact alistGet_set_self _ _ _
          · simp [hx]
        · refine ⟨lbl, ?_, x, hx, hxid⟩
          show alistGet (alistSet s.labels l _) l' = some lbl
          rw [alistGet_set_ne _ _ _ _ hl]
          exact hget

/-- A fold of `_addAntecedent` over target labels (the body of
`_addExceptTargets`) only mutates the label store. -/
theorem foldl_addAntecedent_eq (ts : List Nat) (s : BinderState) (f : FlowNode) :
    ts.foldl (fun s labelId => addAntecedent s labelId f) s =
      { s with labels := (ts.foldl (fun s labelId => addAntecedent s labelId f) s).labels } := by
  induction ts generalizing s with
  | nil => simp
  | cons t ts ih =>
    simp only [List.foldl_cons]
    rw [ih (addAntecedent s t f), addAntecedent_eq s t f]

theorem foldl_addAntecedent_preserves_mem (ts : List Nat) (s : BinderState)
    (f : FlowNode) (l' i : Nat) (h : labelHasAntecedentId s l' i) :
    labelHasAntecedentId (ts.foldl (fun s labelId => addAntecedent s labelId f) s) l' i := by
  induction ts generalizing s with
  | nil => exact h
  | cons t ts ih =>
    exact ih _ (addAntecedent_preserves_mem s t l' f i h)

theorem foldl_addAntecedent_mem (ts : List Nat) (s : BinderState) (f : FlowNode)
    (hreach : s.currentFlowNode.isUnreachable = false)
    (hpres : ∀ l ∈ ts, (alistGet s.labels l).isSome) :
    ∀ l ∈ ts, labelHasAntecedentId
      (ts.foldl (fun s labelId => addAntecedent s labelId f) s) l f.id := by
  induction ts generalizing s with
  | nil => intro l hl; cases hl
  | cons t ts ih =>
    intro l hl
    simp only [List.foldl_cons]
    rcases List.mem_cons.mp hl with hl | hl
    · subst hl
      exact foldl_addAntecedent_preserves_mem ts _ f l f.id
        (addAntecedent_mem s l f hreach (hpres l (by simp)))
    · refine ih (addAntecedent s t f) ?_ ?_ l hl
      · rw [addAntecedent_currentFlowNode]; exact hreach
      · intro l2 hl2
        exact addAntecedent_labels_isSome s t l2 f (hpres l2 (by simp [hl2]))

/-! ## Claim C6 -/

/-- **C6.** For every flow label, `_finishFlowLabel` returns the Unreachable
node when the label has no antecedents, the unique antecedent itself when it
has exactly one, and the label itself when it has two or more. -/
theorem claim_C6_finishFlowLabel (lbl : FlowLabel) :
    (lbl.antecedents = [] → finishFlowLabel lbl = unreachableFlowNode) ∧
    (∀ a, lbl.antecedents = [a] → finishFlowLabel lbl = a) ∧
    (2 ≤ lbl.antecedents.length → finishFlowLabel lbl = lbl.toFlowNode) := by
  obtain ⟨kind, id, ants⟩ := lbl
  refine ⟨?_, ?_, ?_⟩
  · intro h
    simp only at h
    subst h
    rfl
  · intro a h
    simp only at h
    subst h
    rfl
  · intro h
    simp only at h
    match ants, h with
    | a :: b :: rest, _ => rfl

/-- Witness for C6: the three cases evaluated at concrete labels. -/
theorem claim_C6_finishFlowLabel_witness :
    finishFlowLabel ⟨.branch, 5, []⟩ = unreachableFlowNode ∧
    finishFlowLabel ⟨.branch, 6, [.start 1]⟩ = .start 1 ∧
    finishFlowLabel ⟨.loop, 7, [.start 1, .start 2]⟩ =
      FlowLabel.toFlowNode ⟨.loop, 7, [.start 1, .start 2]⟩ :=
  ⟨(claim_C6_finishFlowLabel ⟨.branch, 5, []⟩).1 rfl,
   (claim_C6_finishFlowLabel ⟨.branch, 6, [.start 1]⟩).2.1 (.start 1) rfl,
   (claim_C6_finishFlowLabel ⟨.loop, 7, [.start 1, .start 2]⟩).2.2 (by simp)⟩

/-! ## Claim C1 -/

/-- The membership predicate only reads the label store. -/
theorem labelHasAntecedentId_congr {s s' : BinderState} (h : s'.labels = s.labels)
    (l i : Nat) (hm : labelHasAntecedentId s l i) : labelHasAntecedentId s' l i := by
  unfold labelHasAntecedentId at *
  rw [h]
  exact hm

/-- `_addExceptTargets` leaves the new node as antecedent of every except
label. -/
theorem addExceptTargets_mem (s : BinderState) (f : FlowNode) (ts : List Nat)
    (hts : s.currentExceptTargets = some ts)
    (hreach : s.currentFlowNode.isUnreachable = false)
    (hpres : ∀ l ∈ ts, (alistGet s.labels l).isSome) :
    ∀ l ∈ ts, labelHasAntecedentId (addExceptTargets s f) l f.id := by
  intro l hl
  unfold addExceptTargets
  rw [hts]
  exact foldl_addAntecedent_mem ts s f hreach hpres l hl

/-- `_createFlowAssignment` on a bare-name target in reachable code threads
the new assignment node into every current except-target label. -/
theorem createFlowAssignment_exceptTargets (s : BinderState) (nid : Nat) (v : String)
    (unbound : Bool) (symId scId : Nat) (ts : List Nat)
    (hreach : isCodeUnreachable s = false)
    (hlook : lookUpSymbolRecursive s scopeChainFuel s.currentScope v = some (symId, scId))
    (hts : s.currentExceptTargets = some ts)
    (hpres : ∀ l ∈ ts, (alistGet s.labels l).isSome) :
    ∃ s', createFlowAssignment s (.name nid v) unbound = some s' ∧
      ∀ l ∈ ts, labelHasAntecedentId s' l s.nextFlowNodeId := by
  have hreach' : s.currentFlowNode.isUnreachable = false := hreach
  have hmem : ∀ l ∈ ts, labelHasAntecedentId
      (addExceptTargets
        (referenceMapSet { s with nextFlowNodeId := s.nextFlowNodeId + 1 } v)
        (.assignment s.nextFlowNodeId nid s.currentFlowNode symId unbound))
      l s.nextFlowNodeId :=
    addExceptTargets_mem
      (referenceMapSet { s with nextFlowNodeId := s.nextFlowNodeId + 1 } v)
      (.assignment s.nextFlowNodeId nid s.currentFlowNode symId unbound) ts hts hreach'
      hpres
  unfold createFlowAssignment
  dsimp only
  rw [hlook]
  simp only [isCodeUnreachable] at hreach
  simp only [isCodeUnreachable, hreach, Bool.not_false, isCodeFlowSupportedForReference,
    Bool.and_self, if_true, Expression.nodeId, getUniqueFlowNodeId, createKeyForReference]
  -- The remaining steps (installing the new current flow node and the
  -- side-table write) do not touch the label store.
  split
  all_goals try split
  all_goals exact ⟨_, rfl, fun l hl => hmem l hl⟩

/-- The reference-key registration fold of `_createFlowConditional` only
mutates the reference map. -/
theorem foldl_referenceMapSet_eq (l : List Expression) (s : BinderState) :
    l.foldl (fun s e => referenceMapSet s (createKeyForReference e)) s =
      { s with
        currentExecutionScopeReferenceMap :=
          (l.foldl (fun s e => referenceMapSet s (createKeyForReference e))
            s).currentExecutionScopeReferenceMap } := by
  induction l generalizing s with
  | nil => simp
  | cons e l ih =>
    simp only [List.foldl_cons]
    rw [ih (referenceMapSet s (createKeyForReference e))]
    rfl

/-- `_createFlowConditional`, when it reaches the node-creation branch in
reachable code, threads the new `Condition` node into every current
except-target label. -/
theorem createFlowConditional_exceptTargets (s : BinderState) (flag : CondFlag)
    (antecedent : FlowNode) (expression : Expression) (ts : List Nat)
    (el : List Expression)
    (hreach : s.currentFlowNode.isUnreachable = false)
    (hante : antecedent.isUnreachable = false)
    (hstat : staticallyContradictsFlag s flag expression = false)
    (hnarrow : isNarrowingExpression expression [] = (true, el))
    (hts : s.currentExceptTargets = some ts)
    (hpres : ∀ l ∈ ts, (alistGet s.labels l).isSome) :
    (createFlowConditional s flag antecedent expression).1 =
      .condition s.nextFlowNodeId flag expression antecedent ∧
    ∀ l ∈ ts, labelHasAntecedentId
      (createFlowConditional s flag antecedent expression).2 l s.nextFlowNodeId := by
  unfold createFlowConditional
  unfold staticallyContradictsFlag at hstat
  simp only [hante, Bool.false_eq_true, if_false, hstat, hnarrow, getUniqueFlowNodeId]
  rw [foldl_referenceMapSet_eq el s]
  refine ⟨rfl, ?_⟩
  intro l hl
  exact addExceptTargets_mem
    { s with
      currentExecutionScopeReferenceMap :=
        (el.foldl (fun s e => referenceMapSet s (createKeyForReference e))
          s).currentExecutionScopeReferenceMap
      nextFlowNodeId := s.nextFlowNodeId + 1 }
    (.condition s.nextFlowNodeId flag expression antecedent) ts hts hreach hpres l hl

/-- `_createFlowWildcardImport` in reachable code threads the new
`WildcardImport` node into every current except-target label. -/
theorem createFlowWildcardImport_exceptTargets (s : BinderState) (nid : Nat)
    (names : List String) (ts : List Nat)
    (hreach : s.currentFlowNode.isUnreachable = false)
    (hts : s.currentExceptTargets = some ts)
    (hpres : ∀ l ∈ ts, (alistGet s.labels l).isSome) :
    ∀ l ∈ ts, labelHasAntecedentId (createFlowWildcardImport s nid names) l
      s.nextFlowNodeId := by
  intro l hl
  unfold createFlowWildcardImport
  simp only [isCodeUnreachable, hreach, Bool.not_false, if_true, getUniqueFlowNodeId]
  exact addExceptTargets_mem { s with nextFlowNodeId := s.nextFlowNodeId + 1 }
    (.wildcardImport s.nextFlowNodeId nid names s.currentFlowNode)
    ts hts hreach hpres l hl

/-- `_createCallFlowNode` never touches the label store: the `Call` node is
**not** threaded into the except targets. -/
theorem createCallFlowNode_labels (s : BinderState) (nid : Nat) :
    (createCallFlowNode s nid).labels = s.labels := by
  unfold createCallFlowNode
  split <;> rfl

/-- **C1 (amended).** While `_currentExceptTargets` is set, every assignment,
condition and wildcard-import flow node created in reachable code is added as
antecedent to each of its labels — but `Call` flow nodes are **not**:
`_createCallFlowNode` never calls `_addExceptTargets` and leaves the label
store untouched, so a call inside a try block is not threaded into the except
labels. -/
theorem claim_C1_exceptTargetFanIn :
    (∀ (s : BinderState) (nid : Nat) (v : String) (unbound : Bool)
        (symId scId : Nat) (ts : List Nat),
      isCodeUnreachable s = false →
      lookUpSymbolRecursive s scopeChainFuel s.currentScope v = some (symId, scId) →
      s.currentExceptTargets = some ts →
      (∀ l ∈ ts, (alistGet s.labels l).isSome) →
      ∃ s', createFlowAssignment s (.name nid v) unbound = some s' ∧
        ∀ l ∈ ts, labelHasAntecedentId s' l s.nextFlowNodeId) ∧
    (∀ (s : BinderState) (flag : CondFlag) (antecedent : FlowNode)
        (expression : Expression) (ts : List Nat) (el : List Expression),
      s.currentFlowNode.isUnreachable = false →
      antecedent.isUnreachable = false →
      staticallyContradictsFlag s flag expression = false →
      isNarrowingExpression expression [] = (true, el) →
      s.currentExceptTargets = some ts →
      (∀ l ∈ ts, (alistGet s.labels l).isSome) →
      ∀ l ∈ ts, labelHasAntecedentId
        (createFlowConditional s flag antecedent expression).2 l s.nextFlowNodeId) ∧
    (∀ (s : BinderState) (nid : Nat) (names : List String) (ts : List Nat),
      s.currentFlowNode.isUnreachable = false →
      s.currentExceptTargets = some ts →
      (∀ l ∈ ts, (alistGet s.labels l).isSome) →
      ∀ l ∈ ts, labelHasAntecedentId (createFlowWildcardImport s nid names) l
        s.nextFlowNodeId) ∧
    (∀ (s : BinderState) (nid : Nat), (createCallFlowNode s nid).labels = s.labels) :=
  ⟨fun s nid v unbound symId scId ts h1 h2 h3 h4 =>
      createFlowAssignment_exceptTargets s nid v unbound symId scId ts h1 h2 h3 h4,
   fun s flag antecedent expression ts el h1 h2 h3 h4 h5 h6 =>
      (createFlowConditional_exceptTargets s flag antecedent expression ts el
        h1 h2 h3 h4 h5 h6).2,
   fun s nid names ts h1 h2 h3 =>
      createFlowWildcardImport_exceptTargets s nid names ts h1 h2 h3,
   fun s nid => createCallFlowNode_labels s nid⟩

/-- Counterexample to C1 as stated: the `Call` flow node created by visiting
a call expression while the except-target stack is non-empty is **not**
added as an antecedent to the except label.  The node (id 2) is created — it
becomes the current flow — yet label 100 keeps an empty antecedent list. -/
theorem claim_C1_counterexample :
    (createCallFlowNode tryBlockState 55).currentFlowNode =
      .call 2 55 (.start 1) ∧
    ¬ labelHasAntecedentId (createCallFlowNode tryBlockState 55) 100 2 := by
  constructor
  · rfl
  · rintro ⟨lbl, hget, x, hx, hxid⟩
    have h2 : alistGet (createCallFlowNode tryBlockState 55).labels 100 =
        some (⟨.branch, 100, []⟩ : FlowLabel) := rfl
    rw [h2] at hget
    cases hget
    simp at hx

/-- Witness for the amended C1 theorem: its parts applied at concrete states
inside a try block. -/
theorem claim_C1_exceptTargetFanIn_witness :
    (∃ s', createFlowAssignment
        { tryBlockState with
          scopes := [(0, { type := ScopeType.module, parent := none,
                           symbolTable := [("x", 1)] })] }
        (.name 9 "x") false = some s' ∧
      ∀ l ∈ [100], labelHasAntecedentId s' l 2) ∧
    (∀ l ∈ [100], labelHasAntecedentId
      (createFlowWildcardImport tryBlockState 7 ["a"]) l 2) := by
  constructor
  · exact claim_C1_exceptTargetFanIn.1
      { tryBlockState with
        scopes := [(0, { type := ScopeType.module, parent := none,
                         symbolTable := [("x", 1)] })] }
      9 "x" false 1 0 [100] rfl rfl rfl
      (by intro l hl; simp at hl; subst hl; rfl)
  · exact claim_C1_exceptTargetFanIn.2.2.1 tryBlockState 7 ["a"] [100] rfl rfl
      (by intro l hl; simp at hl; subst hl; rfl)

/-! ## Claim C2 -/

/-- If the duplicate check of `_addAntecedent` fails, the id is absent. -/
theorem not_mem_map_id_of_any_false (ants : List FlowNode) (a : FlowNode)
    (h : (ants.any fun existing => existing.id == a.id) = false) :
    a.id ∉ ants.map FlowNode.id := by
  intro hmem
  obtain ⟨x, hx, hxid⟩ := List.mem_map.mp hmem
  have := List.any_eq_false.mp h x hx
  simp [hxid] at this

/-- `_addAntecedent` preserves pairwise-distinctness of antecedent ids in
every stored label. -/
theorem addAntecedent_labelsNodupInv (s : BinderState) (l : Nat) (a : FlowNode)
    (h : labelsNodupInv s) : labelsNodupInv (addAntecedent s l a) := by
  unfold addAntecedent
  split
  · exact h
  · split
    · exact h
    · split
      · exact h
      · next lbl hget hdup =>
        intro k lbl2 hk
        by_cases hkl : k = l
        · subst hkl
          rw [show alistGet (alistSet s.labels k
              ⟨lbl.kind, lbl.id, lbl.antecedents ++ [a]⟩) k = some
              ⟨lbl.kind, lbl.id, lbl.antecedents ++ [a]⟩ from alistGet_set_self _ _ _] at hk
          cases hk
          simp only [List.map_append, List.map_cons, List.map_nil]
          rw [List.nodup_append]
          refine ⟨h k lbl hget, List.nodup_singleton _, ?_⟩
          intro x hx
          simp only [List.mem_singleton]
          intro hxa
          subst hxa
          exact not_mem_map_id_of_any_false lbl.antecedents a
            (Bool.eq_false_iff.mpr hdup) hx
        · rw [show alistGet (alistSet s.labels l
              ⟨lbl.kind, lbl.id, lbl.antecedents ++ [a]⟩) k =
              alistGet s.labels k from alistGet_set_ne _ _ _ _ hkl] at hk
          exact h k lbl2 hk

/-- `_createBranchLabel` and `_createLoopLabel` install labels with no
antecedents, preserving the distinctness invariant. -/
theorem createLabel_labelsNodupInv (s : BinderState) (h : labelsNodupInv s) :
    labelsNodupInv (createBranchLabel s).2 ∧ labelsNodupInv (createLoopLabel s).2 := by
  constructor
  · intro k lbl hk
    replace hk : alistGet
        (alistSet s.labels s.nextFlowNodeId ⟨.branch, s.nextFlowNodeId, []⟩) k =
        some lbl := hk
    by_cases hkl : k = s.nextFlowNodeId
    · subst hkl
      rw [alistGet_set_self] at hk
      cases hk
      simp
    · rw [alistGet_set_ne _ _ _ _ hkl] at hk
      exact h k lbl hk
  · intro k lbl hk
    replace hk : alistGet
        (alistSet s.labels s.nextFlowNodeId ⟨.loop, s.nextFlowNodeId, []⟩) k =
        some lbl := hk
    by_cases hkl : k = s.nextFlowNodeId
    · subst hkl
      rw [alistGet_set_self] at hk
      cases hk
      simp
    · rw [alistGet_set_ne _ _ _ _ hkl] at hk
      exact h k lbl hk

/-- The conditional-test walk of the embedded fragment only writes the
flow-node side table. -/
theorem walkConditionalTestExpression_eq : ∀ (e : Expression) (s : BinderState),
    walkConditionalTestExpression s e =
      { s with flowSideTable := (walkConditionalTestExpression s e).flowSideTable }
  | .name _ _, _ => rfl
  | .memberAccess nid l _, s => by
    show walkConditionalTestExpression (setFlowNodeTbl s nid s.currentFlowNode) l = _
    rw [walkConditionalTestExpression_eq l (setFlowNodeTbl s nid s.currentFlowNode)]
    rfl
  | .constant _ _, _ => rfl
  | .assignmentExpression _ _ _ _, _ => rfl
  | .binaryOperation _ _ _ _, _ => rfl
  | .unaryOperation _ _ _, _ => rfl
  | .augmentedAssignment _ _ _ _, _ => rfl
  | .call _ _ _, _ => rfl

/-- `addAntecedent` preserves node membership in any stored label. -/
theorem addAntecedent_preserves_memNode (s : BinderState) (l l' : Nat) (a b : FlowNode)
    (h : labelHasAntecedentNode s l' b) :
    labelHasAntecedentNode (addAntecedent s l a) l' b := by
  obtain ⟨lbl, hget, hb⟩ := h
  unfold addAntecedent
  split
  · exact ⟨lbl, hget, hb⟩
  · split
    · exact ⟨lbl, hget, hb⟩
    · split
      · exact ⟨lbl, hget, hb⟩
      · next lbl2 hget2 _ =>
        by_cases hl : l' = l
        · subst hl
          rw [hget] at hget2
          cases hget2
          refine ⟨⟨lbl.kind, lbl.id, lbl.antecedents ++ [a]⟩, ?_, ?_⟩
          · show alistGet (alistSet s.labels l' _) l' = _
            exact alistGet_set_self _ _ _
          · simp [hb]
        · refine ⟨lbl, ?_, hb⟩
          show alistGet (alistSet s.labels l _) l' = some lbl
          rw [alistGet_set_ne _ _ _ _ hl]
          exact hget

theorem addAntecedent_fileInfo (s : BinderState) (l : Nat) (a : FlowNode) :
    (addAntecedent s l a).fileInfo = s.fileInfo := by
  conv_lhs => rw [addAntecedent_eq]

/-- `_addAntecedent` on a present empty label in reachable code stores the
antecedent. -/
theorem addAntecedent_new_mem (s : BinderState) (l : Nat) (a : FlowNode)
    (hreach : s.currentFlowNode.isUnreachable = false)
    (hlbl : alistGet s.labels l = some ⟨.branch, l, []⟩) :
    labelHasAntecedentNode (addAntecedent s l a) l a := by
  unfold addAntecedent
  rw [hreach, hlbl]
  simp only [Bool.false_eq_true, if_false, List.any_nil]
  refine ⟨⟨.branch, l, [a]⟩, ?_, by simp⟩
  show alistGet (alistSet s.labels l _) l = _
  exact alistGet_set_self _ _ _

/-- `_bindConditional` on a statically-false, non-logical, non-narrowing test
expression stores the Unreachable singleton as an antecedent of the true
target while the current flow is reachable. -/
theorem bindConditional_stores_unreachable (s : BinderState) (e : Expression)
    (tT fT : Nat)
    (hreach : s.currentFlowNode.isUnreachable = false)
    (hstat : s.fileInfo.staticBoolEval e = some false)
    (hlog : isLogicalExpression e = false)
    (hnarrow : (isNarrowingExpression e []).1 = false)
    (hlbl : alistGet s.labels tT = some ⟨.branch, tT, []⟩) :
    labelHasAntecedentNode (bindConditional s e tT fT) tT unreachableFlowNode := by
  unfold bindConditional
  dsimp only
  rw [walkConditionalTestExpression_eq]
  dsimp only
  simp only [hlog, Bool.not_false, if_true]
  unfold createFlowConditional
  dsimp only
  rw [hstat]
  rcases hp : isNarrowingExpression e [] with ⟨b, el⟩
  rw [hp] at hnarrow
  dsimp only at hnarrow
  subst hnarrow
  dsimp only
  simp only [hreach, Bool.false_eq_true, if_false]
  have hc1 : (some false == some true && CondFlag.trueCondition == CondFlag.falseCondition ||
      some false == some false && CondFlag.trueCondition == CondFlag.trueCondition) = true := by
    decide
  have hc2 : (some false == some true && CondFlag.falseCondition == CondFlag.falseCondition ||
      some false == some false && CondFlag.falseCondition == CondFlag.trueCondition) = false := by
    decide
  simp only [hc1, hc2, eq_self_iff_true, if_true, Bool.false_eq_true, if_false]
  simp only [addAntecedent_fileInfo, addAntecedent_currentFlowNode]
  simp only [hreach, Bool.false_eq_true, if_false, hstat, hc2]
  apply addAntecedent_preserves_memNode
  exact addAntecedent_new_mem _ tT unreachableFlowNode hreach hlbl

/-- **C2 (amended).** Antecedent ids of every stored label stay pairwise
distinct: labels are created with empty antecedent lists and `_addAntecedent`
deduplicates by id; `_addAntecedent` also stores nothing at all while the
current flow is unreachable.  The Unreachable singleton, however, **can** be
stored as an antecedent: `_bindConditional` on a statically-false (resp.
statically-true) non-logical test passes the Unreachable node returned by
`_createFlowConditional` to `_addAntecedent` while the current flow is still
reachable, so the guard does not fire. -/
theorem claim_C2_labelInvariants :
    (∀ (s : BinderState) (l : Nat) (a : FlowNode),
      labelsNodupInv s → labelsNodupInv (addAntecedent s l a)) ∧
    (∀ s : BinderState, labelsNodupInv s →
      labelsNodupInv (createBranchLabel s).2 ∧ labelsNodupInv (createLoopLabel s).2) ∧
    (∀ (s : BinderState) (l : Nat) (a : FlowNode),
      s.currentFlowNode.isUnreachable = true → addAntecedent s l a = s) ∧
    (∀ (s : BinderState) (e : Expression) (tT fT : Nat),
      s.currentFlowNode.isUnreachable = false →
      s.fileInfo.staticBoolEval e = some false →
      isLogicalExpression e = false →
      (isNarrowingExpression e []).1 = false →
      alistGet s.labels tT = some ⟨.branch, tT, []⟩ →
      labelHasAntecedentNode (bindConditional s e tT fT) tT unreachableFlowNode) := by
  refine ⟨addAntecedent_labelsNodupInv, createLabel_labelsNodupInv, ?_, ?_⟩
  · intro s l a h
    unfold addAntecedent
    rw [h]
    simp
  · intro s e tT fT h1 h2 h3 h4 h5
    exact bindConditional_stores_unreachable s e tT fT h1 h2 h3 h4 h5

/-- Counterexample to C2 as stated: binding the test of `if False:` (a
branch label pair freshly created, as in `visitIf`) stores the Unreachable
singleton as an antecedent of the then-label — a `BranchLabel` produced
during binding whose antecedents contain the Unreachable node. -/
theorem claim_C2_counterexample :
    alistGet (bindConditional ifEntryState (.constant 9 .false_) 2 3).labels 2 =
      some ⟨.branch, 2, [unreachableFlowNode]⟩ := rfl

/-- Witness for the amended C2 theorem: the Unreachable-storage conjunct at
the `if False:` state, and the distinctness conjunct at the try-block
state. -/
theorem claim_C2_labelInvariants_witness :
    labelHasAntecedentNode (bindConditional ifEntryState (.constant 9 .false_) 2 3) 2
      unreachableFlowNode ∧
    labelsNodupInv (addAntecedent tryBlockState 100 (.start 1)) := by
  constructor
  · exact claim_C2_labelInvariants.2.2.2 ifEntryState (.constant 9 .false_) 2 3
      rfl rfl rfl rfl rfl
  · refine claim_C2_labelInvariants.1 tryBlockState 100 (.start 1) ?_
    intro k lbl hk
    by_cases h100 : (100 : Nat) = k
    · subst h100
      simp only [tryBlockState, alistGet, if_pos rfl] at hk
      cases hk
      simp
    · simp only [tryBlockState, alistGet, if_neg h100] at hk
      cases hk

/-! ## Claim C3 -/

theorem referenceMapSet_mem_self (s : BinderState) (k : String) :
    k ∈ (referenceMapSet s k).currentExecutionScopeReferenceMap := by
  unfold referenceMapSet
  dsimp only
  split
  · next h => simpa using h
  · simp

theorem referenceMapSet_mem_mono (s : BinderState) (k x : String)
    (h : x ∈ s.currentExecutionScopeReferenceMap) :
    x ∈ (referenceMapSet s k).currentExecutionScopeReferenceMap := by
  unfold referenceMapSet
  dsimp only
  split
  · exact h
  · simp [h]

/-- Keys already present survive the rest of the fold. -/
theorem foldl_referenceMapSet_mem_mono (l : List Expression) (s : BinderState)
    (x : String) (h : x ∈ s.currentExecutionScopeReferenceMap) :
    x ∈ (l.foldl (fun s e => referenceMapSet s (createKeyForReference e))
        s).currentExecutionScopeReferenceMap := by
  induction l generalizing s with
  | nil => exact h
  | cons e l ih => exact ih _ (referenceMapSet_mem_mono s (createKeyForReference e) x h)

theorem foldl_referenceMapSet_mem (l : List Expression) (s : BinderState)
    (x : Expression) (hx : x ∈ l) :
    createKeyForReference x ∈
      (l.foldl (fun s e => referenceMapSet s (createKeyForReference e))
        s).currentExecutionScopeReferenceMap := by
  induction l generalizing s with
  | nil => cases hx
  | cons e l ih =>
    simp only [List.foldl_cons]
    rcases List.mem_cons.mp hx with hx | hx
    · subst hx
      exact foldl_referenceMapSet_mem_mono l _ _
        (referenceMapSet_mem_self s (createKeyForReference x))
    · exact ih (referenceMapSet s (createKeyForReference e)) hx

/-- `_addExceptTargets` only mutates the label store. -/
theorem addExceptTargets_eq (s : BinderState) (f : FlowNode) :
    addExceptTargets s f = { s with labels := (addExceptTargets s f).labels } := by
  unfold addExceptTargets
  split
  · rfl
  · exact foldl_addAntecedent_eq _ _ _

/-- **C3.** The four rules of `_createFlowConditional`: an Unreachable
antecedent is returned unchanged (with no state change); an expression whose
static value contradicts the flag yields the Unreachable node; a
non-narrowing expression returns the antecedent unchanged; otherwise a fresh
`Condition` node carrying the flag, antecedent and expression is returned,
and every extracted reference key is registered in the current execution
scope's reference map. -/
theorem claim_C3_createFlowConditional (s : BinderState) (flag : CondFlag)
    (antecedent : FlowNode) (expression : Expression) :
    (antecedent.isUnreachable = true →
      createFlowConditional s flag antecedent expression = (antecedent, s)) ∧
    (antecedent.isUnreachable = false →
      staticallyContradictsFlag s flag expression = true →
      createFlowConditional s flag antecedent expression = (unreachableFlowNode, s)) ∧
    (antecedent.isUnreachable = false →
      staticallyContradictsFlag s flag expression = false →
      (isNarrowingExpression expression []).1 = false →
      createFlowConditional s flag antecedent expression = (antecedent, s)) ∧
    (∀ el, antecedent.isUnreachable = false →
      staticallyContradictsFlag s flag expression = false →
      isNarrowingExpression expression [] = (true, el) →
      (createFlowConditional s flag antecedent expression).1 =
        .condition s.nextFlowNodeId flag expression antecedent ∧
      ∀ x ∈ el, createKeyForReference x ∈
        (createFlowConditional s flag antecedent
          expression).2.currentExecutionScopeReferenceMap) := by
  refine ⟨?_, ?_, ?_, ?_⟩
  · intro h
    unfold createFlowConditional
    rw [h]
    simp
  · intro h hc
    unfold staticallyContradictsFlag at hc
    unfold createFlowConditional
    rw [h]
    dsimp only
    rw [hc]
    simp
  · intro h hc hn
    unfold staticallyContradictsFlag at hc
    unfold createFlowConditional
    rw [h]
    dsimp only
    rw [hc]
    rcases hp : isNarrowingExpression expression [] with ⟨b, el⟩
    rw [hp] at hn
    dsimp only at hn
    subst hn
    simp
  · intro el h hc hp
    unfold staticallyContradictsFlag at hc
    unfold createFlowConditional
    rw [h]
    dsimp only
    rw [hc, hp]
    simp only [Bool.false_eq_true, if_false, getUniqueFlowNodeId]
    rw [foldl_referenceMapSet_eq el s]
    constructor
    · rfl
    · intro x hx
      have hmem := foldl_referenceMapSet_mem el s x hx
      have hpre : (addExceptTargets
          { s with
            currentExecutionScopeReferenceMap :=
              (el.foldl (fun s e => referenceMapSet s (createKeyForReference e))
                s).currentExecutionScopeReferenceMap
            nextFlowNodeId := s.nextFlowNodeId + 1 }
          (.condition s.nextFlowNodeId flag expression
            antecedent)).currentExecutionScopeReferenceMap =
          (el.foldl (fun s e => referenceMapSet s (createKeyForReference e))
            s).currentExecutionScopeReferenceMap := by
        conv_lhs => rw [addExceptTargets_eq]
      show createKeyForReference x ∈
        (addExceptTargets _ _).currentExecutionScopeReferenceMap
      rw [hpre]
      exact hmem

/-- Witness for C3: the four rules evaluated at concrete inputs (rule 1 at an
unreachable antecedent; rule 2 at `if False:` with the true flag; rule 3 at a
non-narrowing constant; rule 4 at the narrowing test `x is None`). -/
theorem claim_C3_createFlowConditional_witness :
    createFlowConditional baseState .trueCondition unreachableFlowNode
      (.name 4 "x") = (unreachableFlowNode, baseState) ∧
    createFlowConditional baseState .trueCondition (.start 1)
      (.constant 9 .false_) = (unreachableFlowNode, baseState) ∧
    createFlowConditional baseState .trueCondition (.start 1)
      (.constant 9 .true_) = (.start 1, baseState) ∧
    ((createFlowConditional baseState .trueCondition (.start 1)
        (.binaryOperation 5 .is_ (.name 4 "x") (.constant 6 .none_))).1 =
      .condition 2 .trueCondition
        (.binaryOperation 5 .is_ (.name 4 "x") (.constant 6 .none_)) (.start 1) ∧
      "x" ∈ ((createFlowConditional baseState .trueCondition (.start 1)
        (.binaryOperation 5 .is_ (.name 4 "x")
          (.constant 6 .none_))).2).currentExecutionScopeReferenceMap) := by
  refine ⟨?_, ?_, ?_, ?_⟩
  · exact (claim_C3_createFlowConditional baseState .trueCondition unreachableFlowNode
      (.name 4 "x")).1 rfl
  · exact (claim_C3_createFlowConditional baseState .trueCondition (.start 1)
      (.constant 9 .false_)).2.1 rfl rfl
  · exact (claim_C3_createFlowConditional baseState .trueCondition (.start 1)
      (.constant 9 .true_)).2.2.1 rfl rfl rfl
  · have h := (claim_C3_createFlowConditional baseState .trueCondition (.start 1)
      (.binaryOperation 5 .is_ (.name 4 "x") (.constant 6 .none_))).2.2.2
      [.name 4 "x"] rfl rfl rfl
    exact ⟨h.1, h.2 (.name 4 "x") (by simp)⟩

/-! ## Claim C8 -/

theorem addExceptTargets_flowSideTable (s : BinderState) (f : FlowNode) :
    (addExceptTargets s f).flowSideTable = s.flowSideTable := by
  conv_lhs => rw [addExceptTargets_eq]

theorem referenceMapSet_flowSideTable (s : BinderState) (k : String) :
    (referenceMapSet s k).flowSideTable = s.flowSideTable := rfl

/-- **C8.** When `_createFlowAssignment` runs with `unbound = true` on a
bare-name target that already has an attached flow node (and the code is
reachable, so the Unbind assignment node is created): the side-table entry
for the target node is retained unchanged, and the current flow advances to
the new `Assignment` node carrying the `Unbind` flag. -/
theorem claim_C8_unboundAssignmentRetainsFlowNode (s : BinderState) (nid : Nat)
    (v : String) (symId scId : Nat) (prev : FlowNode)
    (hreach : isCodeUnreachable s = false)
    (hlook : lookUpSymbolRecursive s scopeChainFuel s.currentScope v = some (symId, scId))
    (hprev : getFlowNodeTbl s nid = some prev) :
    ∃ s', createFlowAssignment s (.name nid v) true = some s' ∧
      getFlowNodeTbl s' nid = some prev ∧
      s'.currentFlowNode = .assignment s.nextFlowNodeId nid s.currentFlowNode symId true := by
  unfold createFlowAssignment
  dsimp only
  rw [hlook]
  simp only [isCodeUnreachable] at hreach
  simp only [getFlowNodeTbl] at hprev
  simp only [isCodeUnreachable, hreach, Bool.not_false, isCodeFlowSupportedForReference,
    Bool.and_self, if_true, Expression.nodeId, getUniqueFlowNodeId, createKeyForReference,
    getFlowNodeTbl, addExceptTargets_flowSideTable, referenceMapSet_flowSideTable, hprev,
    Bool.not_true, Option.isNone_some, Bool.or_self, Bool.false_eq_true, if_false]
  exact ⟨_, rfl,
    by
      simp only [addExceptTargets_flowSideTable, referenceMapSet_flowSideTable]
      exact hprev,
    rfl⟩

/-- Witness for C8: a state whose target name node 9 already carries an
attached flow node (the start node). -/
theorem claim_C8_unboundAssignmentRetainsFlowNode_witness :
    ∃ s', createFlowAssignment
        { baseState with
          scopes := [(0, { type := ScopeType.module, parent := none,
                           symbolTable := [("e", 1)] })]
          flowSideTable := [(9, .start 1)] }
        (.name 9 "e") true = some s' ∧
      getFlowNodeTbl s' 9 = some (.start 1) ∧
      s'.currentFlowNode = .assignment 2 9 (.start 1) 1 true :=
  claim_C8_unboundAssignmentRetainsFlowNode
    { baseState with
      scopes := [(0, { type := ScopeType.module, parent := none,
                       symbolTable := [("e", 1)] })]
      flowSideTable := [(9, .start 1)] }
    9 "e" 1 0 (.start 1) rfl rfl rfl

/-! ## Claim C9 -/

theorem symbolAddDeclaration_spec (s : BinderState) (symId : Nat) (decl : Declaration)
    (sym : SymbolData) (hsym : alistGet s.symbols symId = some sym) :
    ∃ sym', alistGet (symbolAddDeclaration s symId decl).symbols symId = some sym' ∧
      sym'.declarations = sym.declarations ++ [decl] := by
  unfold symbolAddDeclaration
  rw [hsym]
  exact ⟨_, alistGet_set_self _ _ _, rfl⟩

/-- **C9.** When the import cannot be resolved — no import info, import not
found, a native library, or no resolved paths — the bound symbol still
receives an Alias declaration, whose path is the non-empty sentinel
`*** unresolved ***` rather than a real file path. -/
theorem claim_C9_unresolvedImportSentinel (s : BinderState) (node : ModuleNameData)
    (nodeId : Nat) (importAlias : Option Nat) (importInfo : Option ImportResult)
    (symbolId : Nat) (sym : SymbolData)
    (hsym : alistGet s.symbols symbolId = some sym)
    (hfail : ∀ ii, importInfo = some ii →
      ii.isImportFound = false ∨ ii.isNativeLib = true ∨ ii.resolvedPaths.length = 0) :
    ∃ sym', alistGet
        (createAliasDeclarationForMultipartImportName s node nodeId importAlias
          importInfo symbolId).symbols symbolId = some sym' ∧
      sym'.declarations = sym.declarations ++
        [.alias_ nodeId "*** unresolved ***" importAlias.isSome "" none none []] ∧
      ("*** unresolved ***" : String) ≠ "" := by
  have hne : ("*** unresolved ***" : String) ≠ "" := by decide
  match importInfo with
  | none =>
    obtain ⟨sym', h1, h2⟩ := symbolAddDeclaration_spec s symbolId
      (.alias_ nodeId "*** unresolved ***" importAlias.isSome "" none none []) sym hsym
    exact ⟨sym', h1, h2, hne⟩
  | some ii =>
    have hcond : (ii.isImportFound && !ii.isNativeLib &&
        decide (ii.resolvedPaths.length > 0)) = false := by
      rcases hfail ii rfl with h | h | h
      · simp [h]
      · simp [h]
      · simp [h]
    unfold createAliasDeclarationForMultipartImportName
    dsimp only
    rw [hcond]
    simp only [Bool.false_eq_true, if_false]
    obtain ⟨sym', h1, h2⟩ := symbolAddDeclaration_spec s symbolId
      (.alias_ nodeId "*** unresolved ***" importAlias.isSome "" none none []) sym hsym
    exact ⟨sym', h1, h2, hne⟩

/-- Witness for C9: an import-not-found result on a symbol with no previous
declarations. -/
theorem claim_C9_unresolvedImportSentinel_witness :
    ∃ sym', alistGet
        (createAliasDeclarationForMultipartImportName
          { baseState with
            symbols := [(1, { flags := { initiallyUnbound := true, classMember := true,
                                         externallyHidden := false },
                              declarations := [] })] }
          { leadingDots := 0, nameParts := [(3, "missingmod")] } 4 none
          (some { isImportFound := false, isNativeLib := false,
                  importName := "missingmod", resolvedPaths := [],
                  implicitImports := [] }) 1).symbols 1 = some sym' ∧
      sym'.declarations =
        [.alias_ 4 "*** unresolved ***" false "" none none []] ∧
      ("*** unresolved ***" : String) ≠ "" := by
  obtain ⟨sym', h1, h2, h3⟩ := claim_C9_unresolvedImportSentinel
    { baseState with
      symbols := [(1, { flags := { initiallyUnbound := true, classMember := true,
                                   externallyHidden := false },
                        declarations := [] })] }
    { leadingDots := 0, nameParts := [(3, "missingmod")] } 4 none
    (some { isImportFound := false, isNativeLib := false,
            importName := "missingmod", resolvedPaths := [],
            implicitImports := [] }) 1
    { flags := { initiallyUnbound := true, classMember := true,
                 externallyHidden := false },
      declarations := [] }
    rfl (by intro ii hii; cases hii; exact Or.inl rfl)
  exact ⟨sym', h1, by simpa using h2, h3⟩

/-! ## Claim C10 -/

theorem symbolSetExternallyHidden_eq (s : BinderState) (symId : Nat) :
    symbolSetExternallyHidden s symId =
      { s with symbols := (symbolSetExternallyHidden s symId).symbols } := by
  unfold symbolSetExternallyHidden
  split <;> rfl

theorem symbolSetExternallyHidden_currentFlowNode (s : BinderState) (symId : Nat) :
    (symbolSetExternallyHidden s symId).currentFlowNode = s.currentFlowNode := by
  conv_lhs => rw [symbolSetExternallyHidden_eq]

/-- **C10.** When `_bindNameToScope` binds a name for the first time in a
Class scope (no non-local binding, no existing symbol) and the parent scope
already holds a same-named symbol, it emits an `AssignmentAlias` flow node —
the new symbol's id as target, the outer symbol's id as alias — provided the
current flow is reachable. -/
theorem claim_C10_classScopeAssignmentAlias (s : BinderState) (scopeId : Nat)
    (name : String) (sc : ScopeData) (parentId aliasSymbolId : Nat)
    (hnl : salistGet s.notLocalBindings name = none)
    (hno : scopeLookUpSymbol s scopeId name = none)
    (hsc : alistGet s.scopes scopeId = some sc)
    (htyp : sc.type = ScopeType.class_)
    (hpar : sc.parent = some parentId)
    (hne : parentId ≠ scopeId)
    (halias : scopeLookUpSymbol s parentId name = some aliasSymbolId)
    (hreach : isCodeUnreachable s = false) :
    (bindNameToScope s scopeId name).1 = some s.nextSymbolId ∧
    (bindNameToScope s scopeId name).2.currentFlowNode =
      .assignmentAlias s.nextFlowNodeId s.currentFlowNode s.nextSymbolId
        aliasSymbolId := by
  unfold bindNameToScope
  rw [hnl, hno]
  unfold scopeAddSymbol
  dsimp only
  rw [hsc]
  dsimp only
  rw [show alistGet (alistSet s.scopes scopeId
      { sc with symbolTable := salistSet sc.symbolTable name s.nextSymbolId }) scopeId =
      some { sc with symbolTable := salistSet sc.symbolTable name s.nextSymbolId } from
    alistGet_set_self _ _ _]
  dsimp only
  rw [htyp, hpar]
  simp only [eq_self_iff_true, if_true]
  unfold scopeLookUpSymbol
  dsimp only
  rw [show alistGet (alistSet s.scopes scopeId
      { type := ScopeType.class_, parent := some parentId,
        symbolTable := salistSet sc.symbolTable name s.nextSymbolId }) parentId =
      alistGet s.scopes parentId from alistGet_set_ne _ _ _ _ hne]
  unfold scopeLookUpSymbol at halias
  rw [show (match alistGet s.scopes parentId with
      | none => none
      | some sc => salistGet sc.symbolTable name) = some aliasSymbolId from halias]
  unfold createAssignmentAliasFlowNode
  simp only [isCodeUnreachable] at hreach
  simp only [isCodeUnreachable, hreach, Bool.not_false, if_true, getUniqueFlowNodeId]
  split
  · constructor
    · rfl
    · show (if (s.fileInfo.isStubFile && isPrivateOrProtectedName name) = true
          then _ else _ : BinderState).currentFlowNode = _
      split
      · rw [symbolSetExternallyHidden_currentFlowNode]
      · rfl
  · next h => simp at h

/-- Witness for C10: binding `x` in a class scope (id 5) whose parent module
scope already binds `x` to symbol 1. -/
theorem claim_C10_classScopeAssignmentAlias_witness :
    (bindNameToScope
      { baseState with
        nextSymbolId := 2
        scopes := [(0, { type := ScopeType.module, parent := none,
                         symbolTable := [("x", 1)] }),
                   (5, { type := ScopeType.class_, parent := some 0,
                         symbolTable := [] })] }
      5 "x").1 = some 2 ∧
    (bindNameToScope
      { baseState with
        nextSymbolId := 2
        scopes := [(0, { type := ScopeType.module, parent := none,
                         symbolTable := [("x", 1)] }),
                   (5, { type := ScopeType.class_, parent := some 0,
                         symbolTable := [] })] }
      5 "x").2.currentFlowNode = .assignmentAlias 2 (.start 1) 2 1 :=
  claim_C10_classScopeAssignmentAlias
    { baseState with
      nextSymbolId := 2
      scopes := [(0, { type := ScopeType.module, parent := none,
                       symbolTable := [("x", 1)] }),
                 (5, { type := ScopeType.class_, parent := some 0,
                       symbolTable := [] })] }
    5 "x"
    { type := ScopeType.class_, parent := some 0, symbolTable := [] }
    0 1 rfl rfl rfl rfl rfl (by decide) rfl rfl

/-! ## Claim C5 -/

theorem symbolAddDeclaration_eq (s : BinderState) (symId : Nat) (d : Declaration) :
    symbolAddDeclaration s symId d =
      { s with symbols := (symbolAddDeclaration s symId d).symbols } := by
  unfold symbolAddDeclaration
  split <;> rfl

theorem symbolAddDeclaration_deferredTasks (s : BinderState) (symId : Nat)
    (d : Declaration) :
    (symbolAddDeclaration s symId d).deferredBindingTasks = s.deferredBindingTasks := by
  conv_lhs => rw [symbolAddDeclaration_eq]

theorem symbolAddDeclaration_nextScopeId (s : BinderState) (symId : Nat)
    (d : Declaration) :
    (symbolAddDeclaration s symId d).nextScopeId = s.nextScopeId := by
  conv_lhs => rw [symbolAddDeclaration_eq]

theorem addExceptTargets_deferredTasks (s : BinderState) (f : FlowNode) :
    (addExceptTargets s f).deferredBindingTasks = s.deferredBindingTasks := by
  conv_lhs => rw [addExceptTargets_eq]

theorem scopeAddSymbol_sndTasks (s : BinderState) (scopeId : Nat) (n : String)
    (f : SymbolFlags) :
    ((scopeAddSymbol s scopeId n f).2).deferredBindingTasks = s.deferredBindingTasks := by
  unfold scopeAddSymbol
  dsimp only
  split <;> rfl

theorem scopeAddSymbol_sndNextScopeId (s : BinderState) (scopeId : Nat) (n : String)
    (f : SymbolFlags) :
    ((scopeAddSymbol s scopeId n f).2).nextScopeId = s.nextScopeId := by
  unfold scopeAddSymbol
  dsimp only
  split <;> rfl

theorem createAssignmentAliasFlowNode_deferredTasks (s : BinderState) (a b : Nat) :
    (createAssignmentAliasFlowNode s a b).deferredBindingTasks =
      s.deferredBindingTasks := by
  unfold createAssignmentAliasFlowNode getUniqueFlowNodeId
  split <;> rfl

theorem createAssignmentAliasFlowNode_nextScopeId (s : BinderState) (a b : Nat) :
    (createAssignmentAliasFlowNode s a b).nextScopeId = s.nextScopeId := by
  unfold createAssignmentAliasFlowNode getUniqueFlowNodeId
  split <;> rfl

theorem symbolSetExternallyHidden_deferredTasks (s : BinderState) (symId : Nat) :
    (symbolSetExternallyHidden s symId).deferredBindingTasks =
      s.deferredBindingTasks := by
  conv_lhs => rw [symbolSetExternallyHidden_eq]

theorem symbolSetExternallyHidden_nextScopeId (s : BinderState) (symId : Nat) :
    (symbolSetExternallyHidden s symId).nextScopeId = s.nextScopeId := by
  conv_lhs => rw [symbolSetExternallyHidden_eq]

theorem bindNameToScope_deferredTasks (s : BinderState) (scopeId : Nat) (n : String) :
    ((bindNameToScope s scopeId n).2).deferredBindingTasks = s.deferredBindingTasks := by
  unfold bindNameToScope
  split
  · split
    · rfl
    · rcases hq : scopeAddSymbol s scopeId n
        { initiallyUnbound := true, classMember := true, externallyHidden := false }
        with ⟨symId, s1⟩
      have h1 : s1.deferredBindingTasks = s.deferredBindingTasks := by
        have := scopeAddSymbol_sndTasks s scopeId n
          { initiallyUnbound := true, classMember := true, externallyHidden := false }
        rwa [hq] at this
      dsimp only
      repeat' split
      all_goals
        simp only [symbolSetExternallyHidden_deferredTasks,
          createAssignmentAliasFlowNode_deferredTasks, h1]
  · rfl

theorem bindNameToScope_nextScopeId (s : BinderState) (scopeId : Nat) (n : String) :
    ((bindNameToScope s scopeId n).2).nextScopeId = s.nextScopeId := by
  unfold bindNameToScope
  split
  · split
    · rfl
    · rcases hq : scopeAddSymbol s scopeId n
        { initiallyUnbound := true, classMember := true, externallyHidden := false }
        with ⟨symId, s1⟩
      have h1 : s1.nextScopeId = s.nextScopeId := by
        have := scopeAddSymbol_sndNextScopeId s scopeId n
          { initiallyUnbound := true, classMember := true, externallyHidden := false }
        rwa [hq] at this
      dsimp only
      repeat' split
      all_goals
        simp only [symbolSetExternallyHidden_nextScopeId,
          createAssignmentAliasFlowNode_nextScopeId, h1]
  · rfl

theorem createFlowAssignment_deferredTasks (s : BinderState) (node : Expression)
    (unbound : Bool) (s' : BinderState)
    (h : createFlowAssignment s node unbound = some s') :
    s'.deferredBindingTasks = s.deferredBindingTasks := by
  unfold createFlowAssignment at h
  dsimp only at h
  repeat' split at h
  any_goals cases h
  any_goals rfl
  all_goals simp only [setFlowNodeTbl, addExceptTargets_deferredTasks]
  all_goals try rfl

/-- **C5.** The deferred-binding machinery: `_deferBinding` appends a task at
the **back** of the queue capturing the current scope, non-local-bindings map
and reference map; `_bindDeferred` drains from the **front** (first-in
first-out), and before invoking each callback restores exactly the captured
scope, bindings map and reference map and resets the nested-except depth to
zero, continuing with the rest of the queue only after the callback
completes; and `visitFunction` only enqueues the function-body task (capturing
the freshly created function scope and fresh empty maps) instead of walking
the body, so the enclosing body finishes binding before any nested callback
runs. -/
theorem claim_C5_deferredBindingFifo :
    (∀ (s : BinderState) (cb : DeferredCallbackData),
      (deferBinding s cb).deferredBindingTasks =
        s.deferredBindingTasks ++
          [{ scope := s.currentScope
             nonLocalBindingsMap := s.notLocalBindings
             codeFlowExpressionMap := s.currentExecutionScopeReferenceMap
             callback := cb }]) ∧
    (∀ (fuel : Nat) (s : BinderState) (t : DeferredBindingTask)
        (rest : List DeferredBindingTask),
      s.deferredBindingTasks = t :: rest →
      bindDeferred s (fuel + 1) =
        match runDeferredCallback
          { s with
            deferredBindingTasks := rest
            currentScope := t.scope
            notLocalBindings := t.nonLocalBindingsMap
            nestedExceptDepth := 0
            currentExecutionScopeReferenceMap := t.codeFlowExpressionMap }
          t.callback with
        | none => none
        | some s2 => bindDeferred s2 fuel) ∧
    (∀ (s : BinderState) (nodeId nameNodeId : Nat) (name : String)
        (params : List (Nat × String)) (suite : StatementList) (s' : BinderState),
      visitFunction s nodeId nameNodeId name params suite = some s' →
      s'.deferredBindingTasks =
        s.deferredBindingTasks ++
          [{ scope := s.nextScopeId
             nonLocalBindingsMap := []
             codeFlowExpressionMap := []
             callback := .functionBody nodeId params suite }]) := by
  refine ⟨fun s cb => rfl, ?_, ?_⟩
  · intro fuel s t rest h
    conv_lhs => unfold bindDeferred
    rw [h]
  · intro s nodeId nameNodeId name params suite s' h
    unfold visitFunction at h
    dsimp only at h
    rcases hb : bindNameToScope s s.currentScope name with ⟨symbolOpt, s1⟩
    rw [hb] at h
    dsimp only at h
    have htasks : s1.deferredBindingTasks = s.deferredBindingTasks := by
      have hh := bindNameToScope_deferredTasks s s.currentScope name
      rwa [hb] at hh
    have hnext : s1.nextScopeId = s.nextScopeId := by
      have hh := bindNameToScope_nextScopeId s s.currentScope name
      rwa [hb] at hh
    rcases symbolOpt with _ | symId
    all_goals
      dsimp only at h
      rw [createFlowAssignment_deferredTasks _ _ _ _ h]
      simp only [deferBinding, symbolAddDeclaration_deferredTasks,
        symbolAddDeclaration_nextScopeId]
      rw [htasks, hnext]

theorem claim_C5_deferredBindingFifo_witness :
    ((deferBinding baseState
          (DeferredCallbackData.functionBody 1 [] StatementList.nil)).deferredBindingTasks =
        baseState.deferredBindingTasks ++
          [{ scope := baseState.currentScope
             nonLocalBindingsMap := baseState.notLocalBindings
             codeFlowExpressionMap := baseState.currentExecutionScopeReferenceMap
             callback := DeferredCallbackData.functionBody 1 [] StatementList.nil }]) ∧
    (bindDeferred c5state 1 =
      match runDeferredCallback
          { c5state with
            deferredBindingTasks := []
            currentScope := c5task.scope
            notLocalBindings := c5task.nonLocalBindingsMap
            nestedExceptDepth := 0
            currentExecutionScopeReferenceMap := c5task.codeFlowExpressionMap }
          c5task.callback with
        | none => none
        | some s2 => bindDeferred s2 0) ∧
    ((visitFunction baseState 1 2 "f" [] StatementList.nil).getD
          baseState).deferredBindingTasks =
      baseState.deferredBindingTasks ++
        [{ scope := baseState.nextScopeId
           nonLocalBindingsMap := []
           codeFlowExpressionMap := []
           callback := DeferredCallbackData.functionBody 1 [] StatementList.nil }] :=
  ⟨claim_C5_deferredBindingFifo.1 baseState _,
   claim_C5_deferredBindingFifo.2.1 0 c5state c5task [] rfl,
   claim_C5_deferredBindingFifo.2.2 baseState 1 2 "f" [] StatementList.nil _ rfl⟩

/-! ## Frame lemmas for the generator-marking invariant (C4) -/

theorem updateFunctionDecl_eq (s : BinderState) (fnId : Nat)
    (f : FunctionDeclData → FunctionDeclData) :
    updateFunctionDecl s fnId f =
      { s with functionDecls := (updateFunctionDecl s fnId f).functionDecls } := by
  unfold updateFunctionDecl
  split <;> rfl

theorem updateFunctionDecl_target (s : BinderState) (fnId : Nat)
    (f : FunctionDeclData → FunctionDeclData) :
    (updateFunctionDecl s fnId f).targetFunctionDeclaration =
      s.targetFunctionDeclaration := by
  conv_lhs => rw [updateFunctionDecl_eq]

theorem updateFunctionDecl_currentFlowNode (s : BinderState) (fnId : Nat)
    (f : FunctionDeclData → FunctionDeclData) :
    (updateFunctionDecl s fnId f).currentFlowNode = s.currentFlowNode := by
  conv_lhs => rw [updateFunctionDecl_eq]

theorem updateFunctionDecl_genOf (s : BinderState) (fnId : Nat)
    (f : FunctionDeclData → FunctionDeclData) (fid : Nat)
    (h : ∀ d, (f d).isGenerator = d.isGenerator) :
    genOf (updateFunctionDecl s fnId f) fid = genOf s fid := by
  unfold updateFunctionDecl genOf
  split
  · rfl
  · rename_i d hd
    dsimp only
    by_cases hf : fid = fnId
    · subst hf
      rw [alistGet_set_self, hd]
      show some ((f d).isGenerator) = some d.isGenerator
      rw [h d]
    · rw [alistGet_set_ne s.functionDecls fnId fid (f d) hf]

theorem updateFunctionDecl_genOf_self (s : BinderState) (fnId : Nat)
    (f : FunctionDeclData → FunctionDeclData) (d : FunctionDeclData)
    (hd : alistGet s.functionDecls fnId = some d) :
    genOf (updateFunctionDecl s fnId f) fnId = some ((f d).isGenerator) := by
  unfold updateFunctionDecl genOf
  rw [hd]
  dsimp only
  rw [alistGet_set_self]
  rfl

theorem addAntecedent_functionDecls (s : BinderState) (l : Nat) (a : FlowNode) :
    (addAntecedent s l a).functionDecls = s.functionDecls := by
  conv_lhs => rw [addAntecedent_eq]

theorem addAntecedent_target (s : BinderState) (l : Nat) (a : FlowNode) :
    (addAntecedent s l a).targetFunctionDeclaration = s.targetFunctionDeclaration := by
  conv_lhs => rw [addAntecedent_eq]

theorem foldl_addAntecedent_self_eq (ts : List Nat) (s : BinderState) :
    ts.foldl (fun s labelId => addAntecedent s labelId s.currentFlowNode) s =
      { s with
        labels :=
          (ts.foldl (fun s labelId => addAntecedent s labelId s.currentFlowNode)
            s).labels } := by
  induction ts generalizing s with
  | nil => simp
  | cons t ts ih =>
    simp only [List.foldl_cons]
    rw [ih (addAntecedent s t s.currentFlowNode), addAntecedent_eq s t s.currentFlowNode]

theorem foldl_addAntecedent_self_functionDecls (ts : List Nat) (s : BinderState) :
    (ts.foldl (fun s labelId => addAntecedent s labelId s.currentFlowNode)
        s).functionDecls = s.functionDecls := by
  conv_lhs => rw [foldl_addAntecedent_self_eq]

theorem foldl_addAntecedent_self_target (ts : List Nat) (s : BinderState) :
    (ts.foldl (fun s labelId => addAntecedent s labelId s.currentFlowNode)
        s).targetFunctionDeclaration = s.targetFunctionDeclaration := by
  conv_lhs => rw [foldl_addAntecedent_self_eq]

theorem addExceptTargets_functionDecls (s : BinderState) (f : FlowNode) :
    (addExceptTargets s f).functionDecls = s.functionDecls := by
  conv_lhs => rw [addExceptTargets_eq]

theorem addExceptTargets_target (s : BinderState) (f : FlowNode) :
    (addExceptTargets s f).targetFunctionDeclaration = s.targetFunctionDeclaration := by
  conv_lhs => rw [addExceptTargets_eq]

theorem symbolSetExternallyHidden_functionDecls (s : BinderState) (symId : Nat) :
    (symbolSetExternallyHidden s symId).functionDecls = s.functionDecls := by
  conv_lhs => rw [symbolSetExternallyHidden_eq]

theorem symbolSetExternallyHidden_target (s : BinderState) (symId : Nat) :
    (symbolSetExternallyHidden s symId).targetFunctionDeclaration =
      s.targetFunctionDeclaration := by
  conv_lhs => rw [symbolSetExternallyHidden_eq]

theorem symbolSetExternallyHidden_isCodeUnreachable (s : BinderState) (symId : Nat) :
    isCodeUnreachable (symbolSetExternallyHidden s symId) = isCodeUnreachable s := by
  unfold isCodeUnreachable
  rw [symbolSetExternallyHidden_currentFlowNode]

theorem symbolAddDeclaration_functionDecls (s : BinderState) (symId : Nat)
    (d : Declaration) :
    (symbolAddDeclaration s symId d).functionDecls = s.functionDecls := by
  conv_lhs => rw [symbolAddDeclaration_eq]

theorem symbolAddDeclaration_target (s : BinderState) (symId : Nat) (d : Declaration) :
    (symbolAddDeclaration s symId d).targetFunctionDeclaration =
      s.targetFunctionDeclaration := by
  conv_lhs => rw [symbolAddDeclaration_eq]

theorem symbolAddDeclaration_currentFlowNode (s : BinderState) (symId : Nat)
    (d : Declaration) :
    (symbolAddDeclaration s symId d).currentFlowNode = s.currentFlowNode := by
  conv_lhs => rw [symbolAddDeclaration_eq]

theorem scopeAddSymbol_sndFunctionDecls (s : BinderState) (scopeId : Nat) (n : String)
    (f : SymbolFlags) :
    ((scopeAddSymbol s scopeId n f).2).functionDecls = s.functionDecls := by
  unfold scopeAddSymbol
  dsimp only
  split <;> rfl

theorem scopeAddSymbol_sndTarget (s : BinderState) (scopeId : Nat) (n : String)
    (f : SymbolFlags) :
    ((scopeAddSymbol s scopeId n f).2).targetFunctionDeclaration =
      s.targetFunctionDeclaration := by
  unfold scopeAddSymbol
  dsimp only
  split <;> rfl

theorem scopeAddSymbol_sndIsCodeUnreachable (s : BinderState) (scopeId : Nat)
    (n : String) (f : SymbolFlags) :
    isCodeUnreachable ((scopeAddSymbol s scopeId n f).2) = isCodeUnreachable s := by
  unfold isCodeUnreachable scopeAddSymbol
  dsimp only
  split <;> rfl

theorem createAssignmentAliasFlowNode_functionDecls (s : BinderState) (a b : Nat) :
    (createAssignmentAliasFlowNode s a b).functionDecls = s.functionDecls := by
  unfold createAssignmentAliasFlowNode getUniqueFlowNodeId
  split <;> rfl

theorem createAssignmentAliasFlowNode_target (s : BinderState) (a b : Nat) :
    (createAssignmentAliasFlowNode s a b).targetFunctionDeclaration =
      s.targetFunctionDeclaration := by
  unfold createAssignmentAliasFlowNode getUniqueFlowNodeId
  split <;> rfl

theorem createAssignmentAliasFlowNode_isCodeUnreachable (s : BinderState) (a b : Nat) :
    isCodeUnreachable (createAssignmentAliasFlowNode s a b) = isCodeUnreachable s := by
  unfold createAssignmentAliasFlowNode getUniqueFlowNodeId
  split
  · rename_i hc
    show false = isCodeUnreachable s
    cases hx : isCodeUnreachable s
    · rfl
    · rw [hx] at hc
      simp at hc
  · rfl

theorem bindNameToScope_functionDecls (s : BinderState) (scopeId : Nat) (n : String) :
    ((bindNameToScope s scopeId n).2).functionDecls = s.functionDecls := by
  unfold bindNameToScope
  split
  · split
    · rfl
    · rcases hq : scopeAddSymbol s scopeId n
        { initiallyUnbound := true, classMember := true, externallyHidden := false }
        with ⟨symId, s1⟩
      have h1 : s1.functionDecls = s.functionDecls := by
        have hh := scopeAddSymbol_sndFunctionDecls s scopeId n
          { initiallyUnbound := true, classMember := true, externallyHidden := false }
        rwa [hq] at hh
      dsimp only
      repeat' split
      all_goals
        simp only [symbolSetExternallyHidden_functionDecls,
          createAssignmentAliasFlowNode_functionDecls, h1]
  · rfl

theorem bindNameToScope_target (s : BinderState) (scopeId : Nat) (n : String) :
    ((bindNameToScope s scopeId n).2).targetFunctionDeclaration =
      s.targetFunctionDeclaration := by
  unfold bindNameToScope
  split
  · split
    · rfl
    · rcases hq : scopeAddSymbol s scopeId n
        { initiallyUnbound := true, classMember := true, externallyHidden := false }
        with ⟨symId, s1⟩
      have h1 : s1.targetFunctionDeclaration = s.targetFunctionDeclaration := by
        have hh := scopeAddSymbol_sndTarget s scopeId n
          { initiallyUnbound := true, classMember := true, externallyHidden := false }
        rwa [hq] at hh
      dsimp only
      repeat' split
      all_goals
        simp only [symbolSetExternallyHidden_target,
          createAssignmentAliasFlowNode_target, h1]
  · rfl

theorem bindNameToScope_isCodeUnreachable (s : BinderState) (scopeId : Nat)
    (n : String) :
    isCodeUnreachable ((bindNameToScope s scopeId n).2) = isCodeUnreachable s := by
  unfold bindNameToScope
  split
  · split
    · rfl
    · rcases hq : scopeAddSymbol s scopeId n
        { initiallyUnbound := true, classMember := true, externallyHidden := false }
        with ⟨symId, s1⟩
      have h1 : isCodeUnreachable s1 = isCodeUnreachable s := by
        have hh := scopeAddSymbol_sndIsCodeUnreachable s scopeId n
          { initiallyUnbound := true, classMember := true, externallyHidden := false }
        rwa [hq] at hh
      dsimp only
      repeat' split
      all_goals
        simp only [symbolSetExternallyHidden_isCodeUnreachable,
          createAssignmentAliasFlowNode_isCodeUnreachable, h1]
  · rfl

theorem createFlowAssignment_functionDecls (s : BinderState) (node : Expression)
    (unbound : Bool) (s' : BinderState)
    (h : createFlowAssignment s node unbound = some s') :
    s'.functionDecls = s.functionDecls := by
  unfold createFlowAssignment at h
  dsimp only at h
  repeat' split at h
  any_goals cases h
  any_goals rfl
  all_goals simp only [setFlowNodeTbl, addExceptTargets_functionDecls]
  all_goals try rfl

theorem createFlowAssignment_target (s : BinderState) (node : Expression)
    (unbound : Bool) (s' : BinderState)
    (h : createFlowAssignment s node unbound = some s') :
    s'.targetFunctionDeclaration = s.targetFunctionDeclaration := by
  unfold createFlowAssignment at h
  dsimp only at h
  repeat' split at h
  any_goals cases h
  any_goals rfl
  all_goals simp only [setFlowNodeTbl, addExceptTargets_target]
  all_goals try rfl

theorem createFlowAssignment_name_reachable (s : BinderState) (nid : Nat) (v : String)
    (s' : BinderState) (hreach : isCodeUnreachable s = false)
    (h : createFlowAssignment s (.name nid v) false = some s') :
    isCodeUnreachable s' = false := by
  unfold createFlowAssignment at h
  dsimp only at h
  repeat' split at h
  any_goals cases h
  any_goals rfl
  all_goals exact hreach

theorem visitFunction_frame (s : BinderState) (nodeId nameNodeId : Nat) (name : String)
    (params : List (Nat × String)) (suite : StatementList) (s' : BinderState)
    (h : visitFunction s nodeId nameNodeId name params suite = some s') :
    s'.targetFunctionDeclaration = s.targetFunctionDeclaration ∧
    (∀ fid, fid ≠ nodeId → alistGet s'.functionDecls fid = alistGet s.functionDecls fid) ∧
    (isCodeUnreachable s = false → isCodeUnreachable s' = false) := by
  unfold visitFunction at h
  dsimp only at h
  rcases hb : bindNameToScope s s.currentScope name with ⟨symbolOpt, s1⟩
  rw [hb] at h
  dsimp only at h
  have hfd : s1.functionDecls = s.functionDecls := by
    have hh := bindNameToScope_functionDecls s s.currentScope name
    rwa [hb] at hh
  have htg : s1.targetFunctionDeclaration = s.targetFunctionDeclaration := by
    have hh := bindNameToScope_target s s.currentScope name
    rwa [hb] at hh
  have hun : isCodeUnreachable s1 = isCodeUnreachable s := by
    have hh := bindNameToScope_isCodeUnreachable s s.currentScope name
    rwa [hb] at hh
  rcases symbolOpt with _ | symId
  all_goals
    dsimp only at h
    refine ⟨?_, ?_, ?_⟩
    · rw [createFlowAssignment_target _ _ _ _ h]
      simp only [deferBinding, symbolAddDeclaration_target]
      exact htg
    · intro fid hne
      rw [createFlowAssignment_functionDecls _ _ _ _ h]
      simp only [deferBinding, symbolAddDeclaration_functionDecls]
      rw [alistGet_set_ne s1.functionDecls nodeId fid _ hne, hfd]
    · intro hreach
      refine createFlowAssignment_name_reachable _ _ _ _ ?_ h
      simp only [isCodeUnreachable, deferBinding, symbolAddDeclaration_currentFlowNode]
      have hh := hun
      unfold isCodeUnreachable at hh
      rw [hh]
      exact hreach

theorem visitReturn_target (s : BinderState) (nid : Nat) :
    (visitReturn s nid).targetFunctionDeclaration = s.targetFunctionDeclaration := by
  unfold visitReturn
  dsimp only
  repeat' split
  all_goals
    simp only [foldl_addAntecedent_self_target, addAntecedent_target, setFlowNodeTbl,
      updateFunctionDecl_target]

theorem visitReturn_genOf (s : BinderState) (nid fid : Nat) :
    genOf (visitReturn s nid) fid = genOf s fid := by
  unfold visitReturn
  dsimp only
  repeat' split
  all_goals
    unfold genOf
    simp only [foldl_addAntecedent_self_functionDecls, addAntecedent_functionDecls,
      setFlowNodeTbl]
    try rfl
  all_goals exact updateFunctionDecl_genOf s _ _ fid fun d => rfl

theorem visitReturn_unreachable (s : BinderState) (nid : Nat) :
    isCodeUnreachable (visitReturn s nid) = true := rfl

theorem bindYield_target (s : BinderState) (nid : Nat) :
    (bindYield s nid).targetFunctionDeclaration = s.targetFunctionDeclaration := by
  unfold bindYield
  dsimp only
  split
  all_goals
    simp only [setFlowNodeTbl, updateFunctionDecl_target]

theorem bindYield_genOf (s : BinderState) (nid fid : Nat) (d : FunctionDeclData)
    (htgt : s.targetFunctionDeclaration = some fid)
    (hd : alistGet s.functionDecls fid = some d) :
    genOf (bindYield s nid) fid = some true := by
  unfold bindYield
  rw [htgt]
  dsimp only
  exact updateFunctionDecl_genOf_self s fid
    (fun d =>
      { d with yieldStatements := d.yieldStatements ++ [nid], isGenerator := true })
    d hd

theorem mem_suiteFunctionDefIds_cons (st : Statement) (rest : StatementList) (x : Nat)
    (h : x ∈ suiteFunctionDefIds rest) : x ∈ suiteFunctionDefIds (.cons st rest) := by
  cases st
  all_goals first
    | exact h
    | exact List.mem_cons_of_mem _ h

theorem setFlowNodeTbl_isCodeUnreachable (s : BinderState) (n : Nat) (f : FlowNode) :
    isCodeUnreachable (setFlowNodeTbl s n f) = isCodeUnreachable s := rfl

theorem setFlowNodeTbl_target (s : BinderState) (n : Nat) (f : FlowNode) :
    (setFlowNodeTbl s n f).targetFunctionDeclaration = s.targetFunctionDeclaration := rfl

theorem setFlowNodeTbl_functionDecls (s : BinderState) (n : Nat) (f : FlowNode) :
    (setFlowNodeTbl s n f).functionDecls = s.functionDecls := rfl

/-- The walker-level generator-marking invariant: starting from a state whose
target function declaration is `fid` with recorded generator flag `g`,
walking a suite (none of whose top-level `def` nodes is `fid`) leaves the
flag at `g` OR-ed with the spec-side marking of the suite. -/
theorem walkStatementsAux_genOf :
    ∀ (suite : StatementList) (s : BinderState) (found : Bool) (fid : Nat) (g : Bool)
      (s' : BinderState),
      s.targetFunctionDeclaration = some fid →
      genOf s fid = some g →
      fid ∉ suiteFunctionDefIds suite →
      walkStatementsAux s suite found = some s' →
      genOf s' fid =
        some (g || specGeneratorMark suite (!(found || isCodeUnreachable s)))
  | .nil, s, found, fid, g, s', htgt, hg, _, hrun => by
      unfold walkStatementsAux at hrun
      cases hrun
      show genOf s fid = some (g || specGeneratorMark .nil (!(found || isCodeUnreachable s)))
      simpa [specGeneratorMark] using hg
  | .cons st rest, s, found, fid, g, s', htgt, hg, hfid, hrun => by
      unfold walkStatementsAux at hrun
      dsimp only at hrun
      rw [show isCodeUnreachable (setFlowNodeTbl s st.nodeId s.currentFlowNode)
            = isCodeUnreachable s from rfl] at hrun
      obtain ⟨d, hd, hdg⟩ :
          ∃ d, alistGet s.functionDecls fid = some d ∧ d.isGenerator = g := by
        unfold genOf at hg
        cases hx : alistGet s.functionDecls fid with
        | none => rw [hx] at hg; cases hg
        | some d => rw [hx] at hg; exact ⟨d, rfl, by simpa using hg⟩
      cases hu : found || isCodeUnreachable s
      case false =>
        rw [hu] at hrun
        simp only [Bool.not_false, eq_self_iff_true, if_true] at hrun
        have hf : found = false := by revert hu; cases found <;> simp
        have hr : isCodeUnreachable s = false := by
          revert hu; cases found <;> cases hx : isCodeUnreachable s <;> simp
        rcases st with nid | nid | nid | ⟨nid, nameNid, name, params, fsuite⟩
        · -- pass
          simp only [walkStatement, Statement.nodeId] at hrun
          have htgt2 : (setFlowNodeTbl s nid s.currentFlowNode).targetFunctionDeclaration
              = some fid := htgt
          have hg2 : genOf (setFlowNodeTbl s nid s.currentFlowNode) fid = some g := hg
          have IH := walkStatementsAux_genOf rest _ false fid g s' htgt2 hg2
            (fun hm => hfid (mem_suiteFunctionDefIds_cons _ _ _ hm)) hrun
          rw [setFlowNodeTbl_isCodeUnreachable, hr] at IH
          exact IH
        · -- return
          simp only [walkStatement, Statement.nodeId] at hrun
          have htgt2 :
              (visitReturn (setFlowNodeTbl s nid s.currentFlowNode)
                  nid).targetFunctionDeclaration = some fid := by
            rw [visitReturn_target]; exact htgt
          have hg2 : genOf (visitReturn (setFlowNodeTbl s nid s.currentFlowNode) nid) fid
              = some g := by
            rw [visitReturn_genOf]; exact hg
          have IH := walkStatementsAux_genOf rest _ false fid g s' htgt2 hg2
            (fun hm => hfid (mem_suiteFunctionDefIds_cons _ _ _ hm)) hrun
          rw [visitReturn_unreachable] at IH
          exact IH
        · -- yield
          simp only [walkStatement, Statement.nodeId] at hrun
          have htgt2 :
              (bindYield (setFlowNodeTbl s nid s.currentFlowNode)
                  nid).targetFunctionDeclaration = some fid := by
            rw [bindYield_target]; exact htgt
          have hg2 : genOf (bindYield (setFlowNodeTbl s nid s.currentFlowNode) nid) fid
              = some true := bindYield_genOf _ nid fid d htgt hd
          have IH := walkStatementsAux_genOf rest _ false fid true s' htgt2 hg2
            (fun hm => hfid (mem_suiteFunctionDefIds_cons _ _ _ hm)) hrun
          simp only [Bool.true_or] at IH
          show genOf s' fid = some (g || true)
          simp only [Bool.or_true]
          exact IH
        · -- nested def
          simp only [walkStatement] at hrun
          split at hrun
          · cases hrun
          · rename_i s2 heq
            obtain ⟨hvt, hvd, hvr⟩ := visitFunction_frame _ nid nameNid name params fsuite s2 heq
            have hne : fid ≠ nid := by
              intro hh
              apply hfid
              show fid ∈ nid :: suiteFunctionDefIds rest
              rw [hh]
              exact List.mem_cons_self _ _
            have hmem : fid ∉ suiteFunctionDefIds rest :=
              fun hm => hfid (mem_suiteFunctionDefIds_cons _ _ _ hm)
            have htgt2 : s2.targetFunctionDeclaration = some fid := by
              rw [hvt]; exact htgt
            have hg2 : genOf s2 fid = some g := by
              unfold genOf
              rw [hvd fid hne]
              exact hg
            have hr2 : isCodeUnreachable s2 = false := hvr hr
            have IH := walkStatementsAux_genOf rest s2 false fid g s' htgt2 hg2 hmem hrun
            rw [hr2] at IH
            exact IH
      case true =>
        rw [hu] at hrun
        simp only [Bool.not_true, Bool.false_eq_true, if_false] at hrun
        rw [setFlowNodeTbl_target, htgt] at hrun
        dsimp only at hrun
        rw [setFlowNodeTbl_functionDecls, hd] at hrun
        dsimp only at hrun
        split at hrun
        · rename_i hcond
          simp only [Bool.and_eq_true, Bool.not_eq_true'] at hcond
          have hg0 : g = false := by rw [← hdg, hcond.1]
          have htgt2 :
              (updateFunctionDecl (setFlowNodeTbl s st.nodeId s.currentFlowNode) fid
                  (fun d => { d with isGenerator := true })).targetFunctionDeclaration
                = some fid := by
            rw [updateFunctionDecl_target]; exact htgt
          have hg2 :
              genOf (updateFunctionDecl (setFlowNodeTbl s st.nodeId s.currentFlowNode)
                  fid (fun d => { d with isGenerator := true })) fid = some true :=
            updateFunctionDecl_genOf_self _ fid _ d hd
          have IH := walkStatementsAux_genOf rest _ true fid true s' htgt2 hg2
            (fun hm => hfid (mem_suiteFunctionDefIds_cons _ _ _ hm))
            hrun
          simp only [Bool.true_or, Bool.not_true] at IH
          rw [hg0]
          show genOf s' fid = some (false || (containsYield st || specGeneratorMark rest false))
          rw [hcond.2]
          simp only [Bool.false_or, Bool.true_or]
          exact IH
        · rename_i hcond
          have htgt2 : (setFlowNodeTbl s st.nodeId
              s.currentFlowNode).targetFunctionDeclaration = some fid := htgt
          have hg2 : genOf (setFlowNodeTbl s st.nodeId s.currentFlowNode) fid
              = some g := hg
          have IH := walkStatementsAux_genOf rest _ true fid g s' htgt2 hg2
            (fun hm => hfid (mem_suiteFunctionDefIds_cons _ _ _ hm)) hrun
          simp only [Bool.true_or, Bool.not_true] at IH
          have hcond' : (!d.isGenerator && containsYield st) = false := by
            revert hcond
            cases !d.isGenerator && containsYield st <;> simp
          show genOf s' fid = some (g || (containsYield st || specGeneratorMark rest false))
          cases hcy : containsYield st
          · simp only [Bool.false_or]
            exact IH
          · have hg1 : g = true := by
              rw [← hdg]
              revert hcond'
              rw [hcy]
              cases d.isGenerator <;> simp
            rw [hg1]
            rw [hg1] at IH
            simp only [Bool.true_or] at IH ⊢
            exact IH

/-- **C4 (amended).**  Generator detection during the body walk: with the
target function declaration set to `fid` (not yet a generator, and `fid` not
shadowed by a top-level `def` of the suite), after
`_walkStatementsAndReportUnreachable` the recorded `isGenerator` flag equals
the spec-side marking `specGeneratorMark`: a yield statement walked while the
flow is live marks the function; once the flow has died, any remaining
statement that syntactically contains a yield — including one inside a nested
`def` — marks it; a nested `def` walked while the flow is live does not (its
body is deferred, so its yields mark only the nested function). -/
theorem claim_C4_generatorDetection (suite : StatementList) (s s' : BinderState)
    (fid : Nat)
    (htgt : s.targetFunctionDeclaration = some fid)
    (hg : genOf s fid = some false)
    (hfid : fid ∉ suiteFunctionDefIds suite)
    (hrun : walkStatementsAndReportUnreachable s suite = some s') :
    genOf s' fid = some (specGeneratorMark suite (!isCodeUnreachable s)) := by
  have h := walkStatementsAux_genOf suite s false fid false s' htgt hg hfid hrun
  simpa using h

/-- Counterexample to the claimed characterization "isGenerator iff the body
contains a yield, reachable or not": in `def f: def g: yield` the body of `f`
syntactically contains a yield, yet after the full run `f` is not marked a
generator (only `g` is); conversely in `def f: return; def g: yield` the
binder marks `f` itself a generator even though no yield statement was ever
bound to `f` (its recorded yield list is empty — the yield belongs to the
nested, never-bound `g`). -/
theorem claim_C4_counterexample :
    (containsYieldList cexFSuite = true ∧
     genOf (cexRun.getD baseState) 1 = some false ∧
     genOf (cexRun.getD baseState) 10 = some true) ∧
    (genOf (cexBRun.getD baseState) 1 = some true ∧
     ((alistGet (cexBRun.getD baseState).functionDecls 1).map
        fun d => d.yieldStatements) = some []) :=
  ⟨⟨rfl, rfl, rfl⟩, rfl, rfl⟩

theorem scopeAddSymbol_sndNotLocalBindings (s : BinderState) (scopeId : Nat)
    (n : String) (f : SymbolFlags) :
    ((scopeAddSymbol s scopeId n f).2).notLocalBindings = s.notLocalBindings := by
  unfold scopeAddSymbol
  dsimp only
  split <;> rfl

theorem createAssignmentAliasFlowNode_notLocalBindings (s : BinderState) (a b : Nat) :
    (createAssignmentAliasFlowNode s a b).notLocalBindings = s.notLocalBindings := by
  unfold createAssignmentAliasFlowNode getUniqueFlowNodeId
  split <;> rfl

theorem symbolSetExternallyHidden_notLocalBindings (s : BinderState) (symId : Nat) :
    (symbolSetExternallyHidden s symId).notLocalBindings = s.notLocalBindings := by
  conv_lhs => rw [symbolSetExternallyHidden_eq]

theorem symbolAddDeclaration_notLocalBindings (s : BinderState) (symId : Nat)
    (d : Declaration) :
    (symbolAddDeclaration s symId d).notLocalBindings = s.notLocalBindings := by
  conv_lhs => rw [symbolAddDeclaration_eq]

theorem symbolAddDeclaration_isCodeUnreachable (s : BinderState) (symId : Nat)
    (d : Declaration) :
    isCodeUnreachable (symbolAddDeclaration s symId d) = isCodeUnreachable s := by
  unfold isCodeUnreachable
  rw [symbolAddDeclaration_currentFlowNode]

theorem bindNameToScope_notLocalBindings (s : BinderState) (scopeId : Nat)
    (n : String) :
    ((bindNameToScope s scopeId n).2).notLocalBindings = s.notLocalBindings := by
  unfold bindNameToScope
  split
  · split
    · rfl
    · rcases hq : scopeAddSymbol s scopeId n
        { initiallyUnbound := true, classMember := true, externallyHidden := false }
        with ⟨symId, s1⟩
      have h1 : s1.notLocalBindings = s.notLocalBindings := by
        have hh := scopeAddSymbol_sndNotLocalBindings s scopeId n
          { initiallyUnbound := true, classMember := true, externallyHidden := false }
        rwa [hq] at hh
      dsimp only
      repeat' split
      all_goals
        simp only [symbolSetExternallyHidden_notLocalBindings,
          createAssignmentAliasFlowNode_notLocalBindings, h1]
  · rfl

theorem bindNameToScope_fst_isSome (s : BinderState) (scopeId : Nat) (n : String)
    (h : s.notLocalBindings = []) :
    ((bindNameToScope s scopeId n).1).isSome = true := by
  unfold bindNameToScope
  rw [h]
  simp only [salistGet, Option.isNone_none, eq_self_iff_true, if_true]
  split
  · rfl
  · rcases hq : scopeAddSymbol s scopeId n
      { initiallyUnbound := true, classMember := true, externallyHidden := false }
      with ⟨symId, s1⟩
    rfl

/-- One pass of the wildcard-name loop of `visitImportFrom`: starting from a
state with no non-local bindings, the loop succeeds (when every wildcard name
is present in the source symbol table) and appends exactly the names whose
table symbols are not flagged ignored-for-protocol-match. -/
theorem wildcardFold_spec (lookupInfo : ImportLookupResult) (nodeId : Nat)
    (resolvedPath : String) :
    ∀ (l : List String) (ns0 : List String) (s0 : BinderState),
      s0.notLocalBindings = [] →
      (∀ n ∈ l, (salistGet lookupInfo.symbolTable n).isSome = true) →
      ∃ sF,
        l.foldl
          (fun acc name =>
            match acc with
            | none => none
            | some (names, s) =>
              match salistGet lookupInfo.symbolTable name with
              | none => none
              | some tableSymbol =>
                if !tableSymbol.isIgnoredForProtocolMatch then
                  let (symbolOpt, s) := bindNameToScope s s.currentScope name
                  match symbolOpt with
                  | some symId =>
                    let s :=
                      symbolAddDeclaration s symId
                        (.alias_ nodeId resolvedPath false
                          s.fileInfo.moduleName (some name) none [])
                    some (names ++ [name], s)
                  | none => some (names, s)
                else some (names, s))
          (some (ns0, s0)) =
          some (ns0 ++ l.filter (fun name =>
              ((salistGet lookupInfo.symbolTable name).map
                  (fun (sym : LookupSymbol) => !sym.isIgnoredForProtocolMatch)).getD
                false), sF) ∧
        sF.notLocalBindings = [] ∧ isCodeUnreachable sF = isCodeUnreachable s0 := by
  intro l
  try dsimp only
  induction l with
  | nil =>
    intro ns0 s0 hnlb _
    exact ⟨s0, by simp, hnlb, rfl⟩
  | cons n l ih =>
    intro ns0 s0 hnlb hall
    obtain ⟨t, ht⟩ := Option.isSome_iff_exists.mp (hall n (List.mem_cons_self _ _))
    have hallTail : ∀ m ∈ l, (salistGet lookupInfo.symbolTable m).isSome = true :=
      fun m hm => hall m (List.mem_cons_of_mem _ hm)
    simp only [List.foldl_cons]
    try dsimp only
    rw [ht]
    try dsimp only
    cases hig : t.isIgnoredForProtocolMatch
    case true =>
      simp only [Bool.not_true, Bool.false_eq_true, if_false]
      obtain ⟨sF, hres, h1, h2⟩ := ih ns0 s0 hnlb hallTail
      refine ⟨sF, ?_, h1, h2⟩
      rw [hres]
      simp [List.filter_cons, ht, hig]
    case false =>
      simp only [Bool.not_false, eq_self_iff_true, if_true]
      rcases hb : bindNameToScope s0 s0.currentScope n with ⟨so, s1⟩
      have hsome : so.isSome = true := by
        have hh := bindNameToScope_fst_isSome s0 s0.currentScope n hnlb
        rwa [hb] at hh
      rcases so with _ | symId
      · simp at hsome
      · dsimp only
        have hnlb1 : s1.notLocalBindings = [] := by
          have hh := bindNameToScope_notLocalBindings s0 s0.currentScope n
          rw [hb] at hh
          rw [hh]
          exact hnlb
        have hun1 : isCodeUnreachable s1 = isCodeUnreachable s0 := by
          have hh := bindNameToScope_isCodeUnreachable s0 s0.currentScope n
          rwa [hb] at hh
        obtain ⟨sF, hres, h1, h2⟩ := ih (ns0 ++ [n])
          (symbolAddDeclaration s1 symId
            (.alias_ nodeId resolvedPath false s1.fileInfo.moduleName (some n) none []))
          (by rw [symbolAddDeclaration_notLocalBindings]; exact hnlb1) hallTail
        refine ⟨sF, ?_, h1, by rw [h2, symbolAddDeclaration_isCodeUnreachable, hun1]⟩
        rw [hres]
        simp [List.filter_cons, ht, hig]

/-- **C7 (amended).**  For a resolved wildcard import bound outside a
package-init relative import, with no non-local bindings in the current scope
and every wildcard name present in the source symbol table, the recorded
`WildcardImport` flow node lists exactly `amendedWildcardImportNames`: the
ignored-for-protocol-match filter applies in **both** the `__all__` and the
no-`__all__` case (the claim exempted the explicit export list from it). -/
theorem claim_C7_wildcardImportNames (s : BinderState) (node : ImportFromNodeData)
    (ii : ImportResult) (lookupInfo : ImportLookupResult) (s' : BinderState)
    (hnlb : s.notLocalBindings = [])
    (hinit : s.fileInfo.fileNameWithoutExtension ≠ "__init__")
    (hlook : s.fileInfo.importLookup (importResolvedPath ii) = some lookupInfo)
    (hall : (getWildcardImportNames lookupInfo).all
        (fun n => (salistGet lookupInfo.symbolTable n).isSome) = true)
    (hreach : isCodeUnreachable s = false)
    (hrun : visitImportFromWildcard s node (some ii) = some s') :
    ∃ id prev,
      getFlowNodeTbl s' node.nodeId =
        some (.wildcardImport id node.nodeId
          (amendedWildcardImportNames lookupInfo) prev) := by
  unfold visitImportFromWildcard at hrun
  dsimp only at hrun
  rw [show (if ii.isImportFound then
        ii.resolvedPaths.getD (ii.resolvedPaths.length - 1) "" else "")
      = importResolvedPath ii from rfl] at hrun
  rw [hlook] at hrun
  try dsimp only at hrun
  have hinitb : (s.fileInfo.fileNameWithoutExtension == "__init__") = false := by
    simp only [beq_eq_false_iff_ne]
    exact hinit
  rw [hinitb] at hrun
  simp only [Bool.false_and, Bool.false_eq_true, if_false] at hrun
  try dsimp only at hrun
  obtain ⟨sF, hfold, hnlbF, hunF⟩ := wildcardFold_spec lookupInfo node.nodeId
    (importResolvedPath ii) (getWildcardImportNames lookupInfo) [] s hnlb
    (fun n hn => List.all_eq_true.mp hall n hn)
  rw [hfold] at hrun
  try dsimp only at hrun
  cases hrun
  have hF : isCodeUnreachable sF = false := by
    rw [hunF]
    exact hreach
  refine ⟨sF.nextFlowNodeId, sF.currentFlowNode, ?_⟩
  unfold getFlowNodeTbl createFlowWildcardImport getUniqueFlowNodeId setFlowNodeTbl
  dsimp only
  rw [hF]
  simp only [Bool.not_false, eq_self_iff_true, if_true]
  rw [alistGet_set_self]
  rfl

/-- Counterexample to claim C7's treatment of explicit export lists: the
source module advertises `__all__ = ["A"]`, so the claim requires exactly
`A` to be imported; but `A` is flagged ignored-for-protocol-match, and the
binder's name loop skips it — the recorded `WildcardImport` flow node lists
no names at all (matching `amendedWildcardImportNames`, not the claim's
list). -/
theorem claim_C7_counterexample :
    claimWildcardImportNames c7LookupInfo = ["A"] ∧
    (c7Run.map fun s => getFlowNodeTbl s c7Node.nodeId) =
      some (some (.wildcardImport c7State.nextFlowNodeId c7Node.nodeId []
        c7State.currentFlowNode)) ∧
    amendedWildcardImportNames c7LookupInfo = [] :=
  ⟨rfl, rfl, rfl⟩

theorem claim_C7_wildcardImportNames_witness :
    ∃ id prev,
      getFlowNodeTbl
          ((visitImportFromWildcard c7WitState c7Node (some c7ImportResult)).getD
            baseState) c7Node.nodeId =
        some (.wildcardImport id c7Node.nodeId
          (amendedWildcardImportNames c7WitLookup) prev) :=
  claim_C7_wildcardImportNames c7WitState c7Node c7ImportResult c7WitLookup _
    rfl (by decide) rfl rfl rfl (by rfl)

theorem claim_C4_generatorDetection_witness :
    c4WitState.targetFunctionDeclaration = some 1 ∧
    genOf c4WitState 1 = some false ∧
    1 ∉ suiteFunctionDefIds c4WitSuite ∧
    genOf ((walkStatementsAndReportUnreachable c4WitState c4WitSuite).getD baseState) 1 =
      some (specGeneratorMark c4WitSuite (!isCodeUnreachable c4WitState)) :=
  ⟨rfl, rfl, by decide,
   claim_C4_generatorDetection c4WitSuite c4WitState _ 1 rfl rfl (by decide) rfl⟩

end PyrightBinder
